import Mathlib

/-!
Shallow embedding of the property-marshalling layer, status taxonomy
resolver, task repository, tool dispatcher and conversation loop of the
project-assistant repository (src/modules/notion_utils.py,
src/modules/claude_tools.py, src/app.py), together with theorems settling
the frozen claims about them.

Python values flowing through the code are dynamically typed; we embed the
shapes the program actually manipulates.  Machine floats only occur as
Notion "number" payloads and are never rounded or formatted by the code
under verification, so numbers are modelled as rationals.  Containers in
every observed code path are flat (lists of scalars), so the value
universe closes at one container level.
-/

namespace ProjAssist

/-- A scalar Python value (`None`, `str`, number, `bool`). -/
inductive PyAtom where
  | none
  | str (s : String)
  | num (q : Rat)
  | bool (b : Bool)
  deriving DecidableEq

/-- A dynamically-typed Python value as passed to / produced by the codec:
a scalar or a flat list of scalars (nested containers occur in no code
path or claim under verification). -/
inductive PyVal where
  | atom (a : PyAtom)
  | list (xs : List PyAtom)
  deriving DecidableEq

/-- Python truthiness of a scalar. -/
def atomTruthy : PyAtom → Bool
  | .none => false
  | .str s => s ≠ ""
  | .num q => q ≠ 0
  | .bool b => b

/-- Python truthiness (`bool(v)` / `if v:`). -/
def pyTruthy : PyVal → Bool
  | .atom a => atomTruthy a
  | .list xs => ¬ xs.isEmpty

/-- Python `repr` of a scalar; only the renderings of `None`, `True`,
`False` and strings are observed by any claim (numeric formatting is
exercised by no theorem). -/
def atomRepr : PyAtom → String
  | .none => "None"
  | .str s => "'" ++ s ++ "'"
  | .num q => toString q
  | .bool true => "True"
  | .bool false => "False"

/-- Python `str(a)` on a scalar: identity on strings. -/
def atomStr : PyAtom → String
  | .none => "None"
  | .str s => s
  | .num q => toString q
  | .bool true => "True"
  | .bool false => "False"

/-- Python `str(v)`.  `str` on a string is the identity; list rendering
follows CPython's `repr`-of-elements shape and is exercised by no
theorem. -/
def pyStr : PyVal → String
  | .atom a => atomStr a
  | .list xs => "[" ++ String.intercalate ", " (xs.map atomRepr) ++ "]"

/-- Parse of a plain decimal literal, modelling Python `float(s)` on the
string inputs the claims exercise: an optional sign, digits, an optional
fractional part.  Strings outside this grammar fail to parse (Python would
raise `ValueError`; the code under verification catches it). -/
def parseDecimal (s : String) : Option Rat :=
  let core (t : List Char) : Option Rat :=
    match t.span Char.isDigit with
    | (intPart, rest) =>
      if intPart.isEmpty then Option.none
      else
        let intVal : Nat := intPart.foldl (fun a c => a * 10 + (c.toNat - 48)) 0
        match rest with
        | [] => some (intVal : Rat)
        | '.' :: fracPart =>
          if fracPart.all Char.isDigit then
            let fracVal : Nat := fracPart.foldl (fun a c => a * 10 + (c.toNat - 48)) 0
            some ((intVal : Rat) + (fracVal : Rat) / ((10 : Rat) ^ fracPart.length))
          else Option.none
        | _ => Option.none
  match s.data with
  | '-' :: t => (core t).map Neg.neg
  | '+' :: t => core t
  | t => core t

/-- Python `float(v)`: `Option.none` models the `TypeError`/`ValueError`
branch (always caught by the code under verification). -/
def pyFloat : PyVal → Option Rat
  | .atom .none => Option.none
  | .atom (.str s) => parseDecimal s
  | .atom (.num q) => some q
  | .atom (.bool true) => some 1
  | .atom (.bool false) => some 0
  | .list _ => Option.none

/-- ASCII lower-casing of one character, modelling Python `str.lower()`
on the ASCII property/status names the code manipulates. -/
def charLower (c : Char) : Char :=
  if c.isUpper then Char.ofNat (c.toNat + 32) else c

/-- Python `s.lower()` (ASCII). -/
def strLower (s : String) : String :=
  ⟨s.data.map charLower⟩

/-- Python `s.strip()`: drop leading and trailing whitespace. -/
def strTrim (s : String) : String :=
  ⟨((s.data.dropWhile Char.isWhitespace).reverse.dropWhile
      Char.isWhitespace).reverse⟩

/-- Python `s.strip().lower()`, the case-folding the code applies before
comparing status/group names. -/
def caseFold (s : String) : String :=
  strLower (strTrim s)

/-- Python `s[:n]` (first `n` characters). -/
def strSlice (s : String) (n : Nat) : String :=
  ⟨s.data.take n⟩

/-- First-match association lookup, modelling `dict.get` on Python dicts
(whose keys are unique, so first match is the match). -/
def dget {α : Type} (d : List (String × α)) (k : String) : Option α :=
  (d.find? (fun kv => kv.1 = k)).map (fun kv => kv.2)

/-- `k in d` for a Python dict. -/
def dmem {α : Type} (d : List (String × α)) (k : String) : Bool :=
  (dget d k).isSome

/-- `d[k] = v` on a Python dict: replaces the value in place when the key
exists (insertion order kept), appends otherwise. -/
def dset {α : Type} (d : List (String × α)) (k : String) (v : α) :
    List (String × α) :=
  match d with
  | [] => [(k, v)]
  | kv :: rest => if kv.1 = k then (k, v) :: rest else kv :: dset rest k v

/-- The whitespace-run split of Python `str.split()` (no argument):
maximal non-whitespace runs, empties discarded. -/
def wsWords (cs : List Char) (cur : List Char) : List (List Char) :=
  match cs with
  | [] => if cur.isEmpty then [] else [cur.reverse]
  | c :: rest =>
    if c.isWhitespace then
      if cur.isEmpty then wsWords rest [] else cur.reverse :: wsWords rest []
    else wsWords rest (c :: cur)

/-- `"_".join(words)`. -/
def joinUnderscore : List (List Char) → List Char
  | [] => []
  | [w] => w
  | w :: ws => w ++ '_' :: joinUnderscore ws

/-- `_slugify` (src/modules/notion_utils.py): lower-case, split on
whitespace runs, join with underscores. -/
def slugify (name : String) : String :=
  ⟨joinUnderscore (wsWords (name.data.map charLower) [])⟩

/-- One rich-text run.  Reads from the remote carry `plain_text`; write
payloads built by the code carry `\x7b"text": \x7b"content": ...\x7d\x7d`.
A field that is `Option.none` models the key being absent. -/
structure Run where
  content : Option String := Option.none
  plain_text : Option String := Option.none
  deriving DecidableEq

/-- One person reference in a `people` payload. -/
structure Person where
  name : Option String := Option.none
  id : Option String := Option.none
  deriving DecidableEq

/-- The per-property wire payload of one page property (both the read and
the write form).  The constructor is the payload's `"type"` key; its
argument is the value stored under the type-named key.  `url`/`email`/
`phone_number` carry the raw value the code writes (`value or None`),
which the code does not convert to a string. -/
inductive PropPayload where
  | title (runs : List Run)
  | rich_text (runs : List Run)
  | select (sel : Option String)
  | status (sel : Option String)
  | multi_select (names : List String)
  | number (n : Option Rat)
  | date (start : Option String)
  | checkbox (b : Bool)
  | url (v : PyVal)
  | email (v : PyVal)
  | phone_number (v : PyVal)
  | people (ps : List Person)
  deriving DecidableEq

/-- The `"type"` tag carried by a raw page payload
(`raw_payload.get("type")`). -/
def PropPayload.typeTag : PropPayload → String
  | .title _ => "title"
  | .rich_text _ => "rich_text"
  | .select _ => "select"
  | .status _ => "status"
  | .multi_select _ => "multi_select"
  | .number _ => "number"
  | .date _ => "date"
  | .checkbox _ => "checkbox"
  | .url _ => "url"
  | .email _ => "email"
  | .phone_number _ => "phone_number"
  | .people _ => "people"

/-- One option of a status/select configuration. -/
structure StatusOption where
  id : Option String := Option.none
  name : Option String := Option.none
  deriving DecidableEq

/-- One group of a status configuration (`option_ids` models
`group.get("option_ids") or []`). -/
structure StatusGroup where
  name : Option String := Option.none
  option_ids : List String := []
  deriving DecidableEq

/-- A property descriptor of the database schema: the declared type tag
plus the status/select configuration stored under the type-named key
(`status_prop.get(prop_type, \x7b\x7d)`).  Descriptors on the wire are
never empty dicts. -/
structure PropDesc where
  type : String
  options : List StatusOption := []
  groups : List StatusGroup := []
  deriving DecidableEq

/-- The database schema: property name → descriptor, in declaration
order; a Python dict, so keys are unique. -/
abbrev Schema := List (String × PropDesc)

/-- `schema.get(property_name)`. -/
def lookupProp (schema : Schema) (name : String) : Option PropDesc :=
  dget schema name

/-- `_rich_text_to_plain` (src/modules/notion_utils.py): join the runs'
plain text, strip; empty result → `None`. -/
def richTextToPlain (items : List Run) : Option String :=
  if items.isEmpty then Option.none
  else
    let text :=
      strTrim (String.join (items.map (fun part => part.plain_text.getD "")))
    if text = "" then Option.none else some text

/-- The value of `person.get("name") or person.get("id")` when truthy
(the list comprehension in the `people` branch keeps exactly the truthy
ones). -/
def personLabel (p : Person) : Option String :=
  let pick :=
    match p.name with
    | some s => if s ≠ "" then some s else p.id
    | Option.none => p.id
  match pick with
  | some s => if s ≠ "" then some s else Option.none
  | Option.none => Option.none

/-- `NotionHelper._extract_property_value` (the Property Codec's decode):
branch on the schema's type tag; `payload = Option.none` models a
property missing from the page (`prop_payload or \x7b\x7d`, under which
every key lookup misses), and a payload of a different type than the tag
behaves as the corresponding key miss. -/
def extract_property_value (ptype : String) (payload : Option PropPayload) :
    PyVal :=
  if ptype = "title" then
    let runs := match payload with | some (.title rs) => rs | _ => []
    .atom (.str ((richTextToPlain runs).getD "Untitled"))
  else if ptype = "rich_text" then
    let runs := match payload with | some (.rich_text rs) => rs | _ => []
    match richTextToPlain runs with
    | some t => .atom (.str t)
    | Option.none => .atom .none
  else if ptype = "select" then
    match payload with
    | some (.select (some n)) => .atom (.str n)
    | _ => .atom .none
  else if ptype = "status" then
    match payload with
    | some (.status (some n)) => .atom (.str n)
    | _ => .atom .none
  else if ptype = "multi_select" then
    let opts := match payload with | some (.multi_select ns) => ns | _ => []
    .list ((opts.filter (fun n => n ≠ "")).map PyAtom.str)
  else if ptype = "number" then
    match payload with
    | some (.number (some q)) => .atom (.num q)
    | _ => .atom .none
  else if ptype = "date" then
    match payload with
    | some (.date (some s)) => .atom (.str s)
    | _ => .atom .none
  else if ptype = "checkbox" then
    match payload with
    | some (.checkbox b) => .atom (.bool b)
    | _ => .atom .none
  else if ptype = "url" then
    match payload with
    | some (.url v) => v
    | _ => .atom .none
  else if ptype = "email" then
    match payload with
    | some (.email v) => v
    | _ => .atom .none
  else if ptype = "phone_number" then
    match payload with
    | some (.phone_number v) => v
    | _ => .atom .none
  else if ptype = "people" then
    let ps := match payload with | some (.people pl) => pl | _ => []
    .list ((ps.filterMap personLabel).map PyAtom.str)
  else .atom .none

/-- The error taxonomy.  Both raise sites use `ValueError`; the
constructors record which of the spec's two classes (Validation vs
Configuration) the raise site belongs to, together with the message. -/
inductive Err where
  | validation (msg : String)
  | config (msg : String)
  | runtime (msg : String)
  deriving DecidableEq

instance instDecEqExcept {ε α : Type} [DecidableEq ε] [DecidableEq α] :
    DecidableEq (Except ε α) :=
  fun a b =>
    match a, b with
    | .ok x, .ok y =>
      if h : x = y then isTrue (by rw [h])
      else isFalse (fun hh => h (Except.ok.inj hh))
    | .error x, .error y =>
      if h : x = y then isTrue (by rw [h])
      else isFalse (fun hh => h (Except.error.inj hh))
    | .ok _, .error _ => isFalse (fun hh => Except.noConfusion hh)
    | .error _, .ok _ => isFalse (fun hh => Except.noConfusion hh)

/-- `NotionHelper._value_for_property` (the Property Codec's encode):
look the property up in the schema (absent → `ValueError`), then branch
on its declared type, falling back to a rich-text write payload for
unrecognized types. -/
def value_for_property (schema : Schema) (property_name : String)
    (value : PyVal) : Except Err PropPayload :=
  match lookupProp schema property_name with
  | Option.none => .error (.config ("Unknown property: " ++ property_name))
  | some prop_schema =>
    let prop_type := prop_schema.type
    if prop_type = "title" then
      let content :=
        if value = PyVal.atom .none then "" else pyStr value
      .ok (.title [⟨some content, Option.none⟩])
    else if prop_type = "rich_text" then
      let content :=
        if value = PyVal.atom .none then "" else pyStr value
      if content = "" then .ok (.rich_text [])
      else .ok (.rich_text [⟨some content, Option.none⟩])
    else if prop_type = "number" then
      if value = PyVal.atom .none ∨ value = PyVal.atom (.str "") then
        .ok (.number Option.none)
      else
        match pyFloat value with
        | some q => .ok (.number (some q))
        | Option.none => .ok (.number Option.none)
    else if prop_type = "date" then
      if pyTruthy value then .ok (.date (some (pyStr value)))
      else .ok (.date Option.none)
    else if prop_type = "select" then
      if pyTruthy value then .ok (.select (some (pyStr value)))
      else .ok (.select Option.none)
    else if prop_type = "status" then
      if pyTruthy value then .ok (.status (some (pyStr value)))
      else .ok (.status Option.none)
    else if prop_type = "multi_select" then
      if pyTruthy value then
        let xs := match value with | .list l => l | .atom a => [a]
        .ok (.multi_select (xs.filterMap (fun e =>
          if e = PyAtom.none ∨ e = PyAtom.str "" then Option.none
          else some (atomStr e))))
      else .ok (.multi_select [])
    else if prop_type = "checkbox" then
      .ok (.checkbox (pyTruthy value))
    else if prop_type = "url" then
      .ok (.url (if pyTruthy value then value else .atom .none))
    else if prop_type = "email" then
      .ok (.email (if pyTruthy value then value else .atom .none))
    else if prop_type = "phone_number" then
      .ok (.phone_number (if pyTruthy value then value else .atom .none))
    else
      if value = PyVal.atom .none ∨ value = PyVal.atom (.str "") then
        .ok (.rich_text [])
      else .ok (.rich_text [⟨some (pyStr value), Option.none⟩])

/-- `ACTIVE_STATUS_FALLBACKS` (src/modules/notion_utils.py). -/
def ACTIVE_STATUS_FALLBACKS : List String :=
  ["Not started", "In progress", "On hold", "Blocked", "To Do", "In Progress"]

/-- `COMPLETE_GROUP_NAMES` (a Python set; only membership is used). -/
def COMPLETE_GROUP_NAMES : List String :=
  ["complete", "completed", "done"]

/-- The `option_by_id` dict comprehension: id → name over the options
with truthy id and name; a duplicate id overwrites (dict semantics). -/
def optionById (options : List StatusOption) : List (String × String) :=
  options.foldl (fun acc opt =>
    match opt.id, opt.name with
    | some i, some n => if i ≠ "" ∧ n ≠ "" then dset acc i n else acc
    | _, _ => acc) []

/-- The `if groups:` block of `_active_status_names`: walk the groups in
order, skip those whose case-folded name is in the completion set, and
append each resolved, truthy, not-yet-seen option name. -/
def groupsBlock (byId : List (String × String)) (groups : List StatusGroup)
    (active_names : List String) : List String :=
  groups.foldl (fun acc group =>
    if caseFold (group.name.getD "") ∈ COMPLETE_GROUP_NAMES.map caseFold
    then acc
    else group.option_ids.foldl (fun acc2 oid =>
      match dget byId oid with
      | some n => if n ≠ "" ∧ n ∉ acc2 then acc2 ++ [n] else acc2
      | Option.none => acc2) acc) active_names

/-- The `available_names` set of `_active_status_names`: the truthy
option names (only membership is used). -/
def availableNames (options : List StatusOption) : List String :=
  options.filterMap (fun o =>
    match o.name with
    | some n => if n ≠ "" then some n else Option.none
    | Option.none => Option.none)

/-- The `if not active_names and options:` block: append each fallback
name that is available and not yet accumulated, in fallback order. -/
def fallbacksBlock (available : List String)
    (active_names : List String) : List String :=
  ACTIVE_STATUS_FALLBACKS.foldl (fun acc fb =>
    if fb ∈ available ∧ fb ∉ acc then acc ++ [fb] else acc) active_names

/-- The final `if not active_names:` block: append every truthy option
name whose case-fold is outside the completion set, de-duplicated, in
declared order. -/
def residualBlock (options : List StatusOption)
    (active_names : List String) : List String :=
  options.foldl (fun acc opt =>
    match opt.name with
    | Option.none => acc
    | some n =>
      if n = "" then acc
      else if caseFold n ∈ COMPLETE_GROUP_NAMES then acc
      else if n ∈ acc then acc
      else acc ++ [n]) active_names

/-- `NotionHelper._active_status_names` (the Status Taxonomy Resolver):
the three sequential guarded accumulation blocks of the source, applied
in order to the initially empty `active_names`. -/
def active_status_names (schema : Schema) : List String :=
  match lookupProp schema "Status" with
  | Option.none => []
  | some status_prop =>
    let options := status_prop.options
    let groups := status_prop.groups
    let a1 : List String :=
      if ¬ groups.isEmpty then groupsBlock (optionById options) groups []
      else []
    let a2 : List String :=
      if a1.isEmpty ∧ ¬ options.isEmpty then
        fallbacksBlock (availableNames options) a1
      else a1
    if a2.isEmpty then residualBlock options a2 else a2

/-- `NotionHelper._status_filter`: build the status/select/multi_select
server filter clause for one status name, or raise for a missing or
unsupported `Status` property. -/
structure StatusFilter where
  property : String
  key : String
  op : String
  value : String
  deriving DecidableEq

def status_filter (schema : Schema) (value : String) :
    Except Err StatusFilter :=
  match lookupProp schema "Status" with
  | Option.none => .error (.config "Database is missing a 'Status' property.")
  | some status_prop =>
    let pt := status_prop.type
    if pt = "status" then .ok ⟨"Status", "status", "equals", value⟩
    else if pt = "select" then .ok ⟨"Status", "select", "equals", value⟩
    else if pt = "multi_select" then
      .ok ⟨"Status", "multi_select", "contains", value⟩
    else .error (.config ("Unsupported Status property type: " ++ pt))

/-- Order-preserving de-duplication (keep the first occurrence), the
meaning of the claim's "de-duplicated" and of a growing `append`-guarded
accumulator started empty. -/
def dedupAppend (acc : List String) (xs : List String) : List String :=
  xs.foldl (fun a x => if x ∈ a then a else a ++ [x]) acc

/-- The option names the claim's resolver can see: truthy names in
declaration order. -/
def truthyNames (options : List StatusOption) : List String :=
  options.filterMap (fun o =>
    match o.name with
    | some n => if n ≠ "" then some n else Option.none
    | Option.none => Option.none)

/-- The per-group option-name resolution (ids mapped through the id→name
table, truthy names only). -/
def groupNamesOf (byId : List (String × String)) (g : StatusGroup) :
    List String :=
  g.option_ids.filterMap (fun oid =>
    match dget byId oid with
    | some n => if n ≠ "" then some n else Option.none
    | Option.none => Option.none)

/-- The names collected by the claim's step 1: every option name in a
group whose case-folded name is not complete/completed/done, group order
then option order, de-duplicated. -/
def specGroupNames (sp : PropDesc) : List String :=
  dedupAppend []
    (((sp.groups.filter (fun g =>
          caseFold (g.name.getD "") ∉ COMPLETE_GROUP_NAMES)).map
        (groupNamesOf (optionById sp.options))).flatten)

/-- The Status Taxonomy Resolver as the claim states it: the three-step
priority cascade (groups, then the fixed fallback intersection, then the
non-complete option names), empty when the `Status` property is absent. -/
def specActiveStatusNames (schema : Schema) : List String :=
  match lookupProp schema "Status" with
  | Option.none => []
  | some sp =>
    let g := specGroupNames sp
    if ¬ g.isEmpty then g
    else
      let f := ACTIVE_STATUS_FALLBACKS.filter
        (fun fb => fb ∈ truthyNames sp.options)
      if ¬ f.isEmpty then f
      else
        dedupAppend []
          ((truthyNames sp.options).filter
            (fun n => caseFold n ∉ COMPLETE_GROUP_NAMES))

lemma dedupAppend_nil (acc : List String) : dedupAppend acc [] = acc := rfl

lemma dedupAppend_cons (acc : List String) (x : String) (xs : List String) :
    dedupAppend acc (x :: xs)
      = dedupAppend (if x ∈ acc then acc else acc ++ [x]) xs := rfl

lemma dedupAppend_append (acc : List String) (xs ys : List String) :
    dedupAppend acc (xs ++ ys) = dedupAppend (dedupAppend acc xs) ys := by
  unfold dedupAppend
  rw [List.foldl_append]

/-- The inner `for oid in option_ids` accumulation equals de-duplicating
append of the resolved truthy names. -/
lemma inner_fold_eq (byId : List (String × String)) (ids : List String)
    (acc : List String) :
    ids.foldl (fun acc2 oid =>
      match dget byId oid with
      | some n => if n ≠ "" ∧ n ∉ acc2 then acc2 ++ [n] else acc2
      | Option.none => acc2) acc
    = dedupAppend acc (ids.filterMap (fun oid =>
        match dget byId oid with
        | some n => if n ≠ "" then some n else Option.none
        | Option.none => Option.none)) := by
  induction ids generalizing acc with
  | nil => rfl
  | cons oid rest ih =>
    simp only [List.foldl_cons, List.filterMap_cons]
    cases h : dget byId oid with
    | none => exact ih acc
    | some n =>
      by_cases hn : n = ""
      · subst hn; simp [ih]
      · by_cases hmem : n ∈ acc
        · simp [hn, hmem, dedupAppend_cons, ih]
        · simp [hn, hmem, dedupAppend_cons, ih]

/-- The group block equals de-duplicating append of the flattened names
of the non-complete groups, in order. -/
lemma groupsBlock_eq (byId : List (String × String))
    (groups : List StatusGroup) (acc : List String) :
    groupsBlock byId groups acc
    = dedupAppend acc
        (((groups.filter (fun g =>
            caseFold (g.name.getD "") ∉ COMPLETE_GROUP_NAMES)).map
          (groupNamesOf byId)).flatten) := by
  have hmapCF : COMPLETE_GROUP_NAMES.map caseFold = COMPLETE_GROUP_NAMES := by
    decide
  unfold groupsBlock
  simp only [hmapCF]
  induction groups generalizing acc with
  | nil => rfl
  | cons g rest ih =>
    simp only [List.foldl_cons, List.filter_cons]
    by_cases hg : caseFold (g.name.getD "") ∈ COMPLETE_GROUP_NAMES
    · rw [if_pos hg, ih]
      have hd : (decide (caseFold (g.name.getD "") ∉ COMPLETE_GROUP_NAMES))
          = false := by simp [hg]
      rw [hd]
      simp
    · rw [if_neg hg, inner_fold_eq byId g.option_ids acc, ih]
      have hd : (decide (caseFold (g.name.getD "") ∉ COMPLETE_GROUP_NAMES))
          = true := by simp [hg]
      rw [hd]
      simp only [if_pos, List.map_cons, List.flatten_cons, dedupAppend_append]
      rfl

/-- The fixed-fallback block equals order-preserving intersection when
the accumulator is fresh for the fallback list. -/
lemma fallbacksBlock_eq (avail : List String) :
    ∀ (l : List String) (acc : List String), l.Nodup →
      (∀ x ∈ l, x ∉ acc) →
      l.foldl (fun acc fb =>
        if fb ∈ avail ∧ fb ∉ acc then acc ++ [fb] else acc) acc
      = acc ++ l.filter (fun fb => fb ∈ avail) := by
  intro l
  induction l with
  | nil => intro acc _ _; simp
  | cons x rest ih =>
    intro acc hnd hfresh
    have hxacc : x ∉ acc := hfresh x (List.mem_cons_self x rest)
    have hndr : rest.Nodup := (List.nodup_cons.mp hnd).2
    have hxr : x ∉ rest := (List.nodup_cons.mp hnd).1
    simp only [List.foldl_cons, List.filter_cons]
    by_cases hx : x ∈ avail
    · have hfresh2 : ∀ y ∈ rest, y ∉ acc ++ [x] := by
        intro y hy
        simp only [List.mem_append, List.mem_singleton]
        rintro (h1 | h2)
        · exact hfresh y (List.mem_cons_of_mem x hy) h1
        · exact hxr (h2 ▸ hy)
      rw [if_pos ⟨hx, hxacc⟩, ih (acc ++ [x]) hndr hfresh2]
      simp [hx, List.append_assoc]
    · rw [if_neg (fun hc => hx hc.1),
        ih acc hndr (fun y hy => hfresh y (List.mem_cons_of_mem x hy))]
      simp [hx]

/-- The residual block equals de-duplicating append of the truthy option
names whose case-fold is outside the completion set. -/
lemma residualBlock_eq (options : List StatusOption) (acc : List String) :
    residualBlock options acc
    = dedupAppend acc
        ((truthyNames options).filter
          (fun n => caseFold n ∉ COMPLETE_GROUP_NAMES)) := by
  induction options generalizing acc with
  | nil => rfl
  | cons opt rest ih =>
    unfold residualBlock at ih ⊢
    simp only [List.foldl_cons, truthyNames, List.filterMap_cons]
    cases hname : opt.name with
    | none => exact ih acc
    | some n =>
      by_cases hn : n = ""
      · subst hn; simpa [truthyNames] using ih acc
      · by_cases hc : caseFold n ∈ COMPLETE_GROUP_NAMES
        · simp only [hn, hc, if_pos, if_neg, not_false_iff]
          rw [ih acc]
          simp [hn, hc, truthyNames]
        · by_cases hmem : n ∈ acc
          · simp only [hn, hc, hmem, if_pos, if_neg, not_false_iff]
            rw [ih acc]
            simp [hn, hc, hmem, dedupAppend_cons, truthyNames]
          · simp only [hn, hc, hmem, if_pos, if_neg, not_false_iff]
            rw [ih (acc ++ [n])]
            simp [hn, hc, hmem, dedupAppend_cons, truthyNames]

lemma availableNames_eq_truthyNames (options : List StatusOption) :
    availableNames options = truthyNames options := rfl

/-- C3: the Status Taxonomy Resolver follows the claimed priority order
exactly — groups first (non-complete groups, group-then-option order,
de-duplicated), else the fixed fallback list intersected with the
available option names in fallback order, else the non-complete option
names in declared order; empty when the `Status` property is absent. -/
theorem c3_status_taxonomy_resolver (schema : Schema) :
    active_status_names schema = specActiveStatusNames schema := by
  unfold active_status_names specActiveStatusNames
  cases hs : lookupProp schema "Status" with
  | none => rfl
  | some sp =>
    simp only []
    have hA1 :
        (if ¬sp.groups.isEmpty then
            groupsBlock (optionById sp.options) sp.groups []
          else []) = specGroupNames sp := by
      by_cases hgE : sp.groups.isEmpty = true
      · have hnil : sp.groups = [] := List.isEmpty_iff.mp hgE
        simp [hnil, specGroupNames, dedupAppend_nil]
      · rw [if_pos (by simpa using hgE), groupsBlock_eq]
        rfl
    rw [hA1]
    rcases eq_or_ne (specGroupNames sp) [] with hG | hG
    · have hFB : fallbacksBlock (availableNames sp.options) [] =
          ACTIVE_STATUS_FALLBACKS.filter
            (fun fb => fb ∈ truthyNames sp.options) := by
        unfold fallbacksBlock
        rw [availableNames_eq_truthyNames,
          fallbacksBlock_eq (truthyNames sp.options) ACTIVE_STATUS_FALLBACKS
            [] (by decide) (by simp), List.nil_append]
      have hRB : residualBlock sp.options [] =
          dedupAppend [] ((truthyNames sp.options).filter
            (fun n => caseFold n ∉ COMPLETE_GROUP_NAMES)) :=
        residualBlock_eq sp.options []
      rcases eq_or_ne sp.options [] with hO | hO
      · simp [hG, hO, truthyNames, dedupAppend_nil, residualBlock]
      · rcases eq_or_ne (ACTIVE_STATUS_FALLBACKS.filter
            (fun fb => fb ∈ truthyNames sp.options)) [] with hF | hF
        · simp [hG, hO, hF, hFB, hRB, List.isEmpty_iff]
        · simp [hG, hO, hF, hFB, List.isEmpty_iff]
    · simp [hG, List.isEmpty_iff]

lemma dget_dset_self {α : Type} (d : List (String × α)) (k : String) (v : α) :
    dget (dset d k v) k = some v := by
  induction d with
  | nil => simp [dset, dget]
  | cons kv rest ih =>
    by_cases h : kv.1 = k
    · simp [dset, h, dget]
    · simp [dset, h, dget]
      simpa [dget] using ih

lemma dget_dset_ne {α : Type} (d : List (String × α)) {k k' : String} (v : α)
    (h : k' ≠ k) : dget (dset d k' v) k = dget d k := by
  induction d with
  | nil => simp [dset, dget, h]
  | cons kv rest ih =>
    by_cases hk : kv.1 = k'
    · simp [dset, hk, dget, h, Ne.symm h]
    · simp only [dset, hk, if_neg, not_false_iff]
      by_cases hkk : kv.1 = k
      · simp [dget, hkk]
      · simp [dget, hkk]
        simpa [dget] using ih

lemma dmem_dset_self {α : Type} (d : List (String × α)) (k : String) (v : α) :
    dmem (dset d k v) k = true := by
  simp [dmem, dget_dset_self]

lemma dmem_dset_ne {α : Type} (d : List (String × α)) {k k' : String} (v : α)
    (h : k' ≠ k) : dmem (dset d k' v) k = dmem d k := by
  simp [dmem, dget_dset_ne d v h]

/-- A raw remote page as consumed by `_page_to_task` (`page.get("id")`,
`page.get("last_edited_time")`, `page.get("properties", \x7b\x7d)`). -/
structure Page where
  id : PyVal := .atom .none
  last_edited_time : PyVal := .atom .none
  properties : List (String × PropPayload) := []
  deriving DecidableEq

/-- A value stored in the task dict: a normalized property value, the
nested `properties` dict, or the raw properties payload. -/
inductive TVal where
  | v (x : PyVal)
  | props (m : List (String × PyVal))
  | raw (m : List (String × PropPayload))
  deriving DecidableEq

/-- `NOTES_PROPERTY_NAMES` (a Python set; only membership is used). -/
def NOTES_PROPERTY_NAMES : List String := ["Notes or Description", "Notes"]

/-- `task["properties"][prop_name] = value`.  When the `properties` entry
has been clobbered by a slug collision Python would raise a `TypeError`
here and produce no task at all, leaving every claim about produced tasks
vacuous; the model leaves the dict unchanged in that unreachable-by-claim
branch. -/
def setTaskProp (task : List (String × TVal)) (name : String)
    (value : PyVal) : List (String × TVal) :=
  match dget task "properties" with
  | some (.props m) => dset task "properties" (.props (dset m name value))
  | _ => task

/-- `prop_name in task["properties"]` (same clobbering caveat as
`setTaskProp`). -/
def taskPropsMem (task : List (String × TVal)) (name : String) : Bool :=
  match dget task "properties" with
  | some (.props m) => dmem m name
  | _ => false

/-- One iteration of the schema-driven loop of `_page_to_task`. -/
def pageStep1 (pageProps : List (String × PropPayload))
    (task : List (String × TVal)) (entry : String × PropDesc) :
    List (String × TVal) :=
  let raw_value := dget pageProps entry.1
  let value := extract_property_value entry.2.type raw_value
  let task := setTaskProp task entry.1 value
  let slug := slugify entry.1
  let task := if slug ≠ "" then dset task slug (.v value) else task
  let task :=
    if entry.2.type = "title" then
      dset task "title"
        (.v (if pyTruthy value then value else .atom (.str "Untitled")))
    else task
  if entry.1 ∈ NOTES_PROPERTY_NAMES ∧ value ≠ PyVal.atom .none then
    dset task "notes" (.v value)
  else task

/-- One iteration of the payload-fallback loop of `_page_to_task`. -/
def pageStep2 (task : List (String × TVal))
    (entry : String × PropPayload) : List (String × TVal) :=
  if taskPropsMem task entry.1 then task
  else
    let value := extract_property_value entry.2.typeTag (some entry.2)
    let task := setTaskProp task entry.1 value
    let slug := slugify entry.1
    let task :=
      if slug ≠ "" ∧ ¬ dmem task slug then dset task slug (.v value)
      else task
    if entry.2.typeTag = "title" ∧ pyTruthy value then
      dset task "title" (.v value)
    else task

/-- `NotionHelper._page_to_task`: normalize one raw page against the
schema — the schema loop, the payload-fallback loop, the `"title"`
setdefault and the `task`/`task_text` backwards-compatibility aliasing. -/
def page_to_task (schema : Schema) (page : Page) : List (String × TVal) :=
  let task0 : List (String × TVal) :=
    [("id", .v page.id), ("last_edited_time", .v page.last_edited_time),
     ("properties", .props []), ("_raw_properties", .raw page.properties)]
  let t1 := schema.foldl (pageStep1 page.properties) task0
  let t2 := page.properties.foldl pageStep2 t1
  let t3 :=
    if dmem t2 "title" then t2
    else dset t2 "title" (.v (.atom (.str "Untitled")))
  match dget t3 "task", dmem t3 "task_text" with
  | some tv, false => dset t3 "task_text" tv
  | _, _ => t3

lemma richTextToPlain_ne_empty {items : List Run} {t : String}
    (h : richTextToPlain items = some t) : t ≠ "" := by
  unfold richTextToPlain at h
  by_cases he : items.isEmpty = true
  · rw [if_pos he] at h
    exact absurd h (by simp)
  · rw [if_neg he] at h
    simp only [] at h
    by_cases ht :
        strTrim (String.join (items.map (fun part => part.plain_text.getD "")))
          = ""
    · rw [if_pos ht] at h
      exact absurd h (by simp)
    · rw [if_neg ht] at h
      rw [Option.some_inj] at h
      rw [← h]
      exact ht

lemma decode_title_shape (p : Option PropPayload) :
    ∃ s, s ≠ "" ∧ extract_property_value "title" p = .atom (.str s) := by
  unfold extract_property_value
  simp only [if_pos rfl]
  cases h : richTextToPlain (match p with | some (.title rs) => rs | _ => []) with
  | none => exact ⟨"Untitled", by decide, by simp [h]⟩
  | some t => exact ⟨t, richTextToPlain_ne_empty h, by simp [h]⟩

/-- Invariant: whatever the task dict holds under `"title"` is a
non-empty string value. -/
def TitleOk (t : List (String × TVal)) : Prop :=
  ∀ x, dget t "title" = some x →
    ∃ s, s ≠ "" ∧ x = TVal.v (.atom (.str s))

lemma titleOk_dset_ne {k : String} (hk : k ≠ "title")
    {t : List (String × TVal)} (v : TVal) (ht : TitleOk t) :
    TitleOk (dset t k v) := by
  intro x hx
  rw [dget_dset_ne _ _ hk] at hx
  exact ht x hx

lemma titleOk_setTaskProp {t : List (String × TVal)} (n : String) (v : PyVal)
    (ht : TitleOk t) : TitleOk (setTaskProp t n v) := by
  unfold setTaskProp
  split
  · exact titleOk_dset_ne (by decide) _ ht
  · exact ht

lemma titleOk_dset_title {t : List (String × TVal)} {s : String}
    (hs : s ≠ "") : TitleOk (dset t "title" (.v (.atom (.str s)))) := by
  intro x hx
  rw [dget_dset_self] at hx
  exact ⟨s, hs, (Option.some_inj.mp hx).symm⟩

lemma pageStep1_titleOk (pageProps : List (String × PropPayload))
    (t : List (String × TVal)) (e : String × PropDesc)
    (h1 : slugify e.1 = "title" → e.2.type = "title")
    (ht : TitleOk t) : TitleOk (pageStep1 pageProps t e) := by
  unfold pageStep1
  simp only []
  have hA : TitleOk
      (setTaskProp t e.1
        (extract_property_value e.2.type (dget pageProps e.1))) :=
    titleOk_setTaskProp _ _ ht
  have hB : TitleOk
      (if slugify e.1 ≠ "" then
        dset (setTaskProp t e.1
            (extract_property_value e.2.type (dget pageProps e.1)))
          (slugify e.1)
          (.v (extract_property_value e.2.type (dget pageProps e.1)))
      else
        setTaskProp t e.1
          (extract_property_value e.2.type (dget pageProps e.1))) := by
    split
    · by_cases hs : slugify e.1 = "title"
      · rw [hs, h1 hs]
        obtain ⟨s, hsne, hshape⟩ := decode_title_shape (dget pageProps e.1)
        rw [hshape]
        exact titleOk_dset_title hsne
      · exact titleOk_dset_ne hs _ hA
    · exact hA
  have hC : TitleOk
      (if e.2.type = "title" then
        dset (if slugify e.1 ≠ "" then
            dset (setTaskProp t e.1
                (extract_property_value e.2.type (dget pageProps e.1)))
              (slugify e.1)
              (.v (extract_property_value e.2.type (dget pageProps e.1)))
          else
            setTaskProp t e.1
              (extract_property_value e.2.type (dget pageProps e.1)))
          "title"
          (.v (if pyTruthy
              (extract_property_value e.2.type (dget pageProps e.1)) then
            extract_property_value e.2.type (dget pageProps e.1)
          else .atom (.str "Untitled")))
      else
        (if slugify e.1 ≠ "" then
          dset (setTaskProp t e.1
              (extract_property_value e.2.type (dget pageProps e.1)))
            (slugify e.1)
            (.v (extract_property_value e.2.type (dget pageProps e.1)))
        else
          setTaskProp t e.1
            (extract_property_value e.2.type (dget pageProps e.1)))) := by
    split
    case isTrue hty =>
      obtain ⟨s, hsne, hshape⟩ := decode_title_shape (dget pageProps e.1)
      rw [hty, hshape]
      have htr : pyTruthy (PyVal.atom (.str s)) = true := by
        simp [pyTruthy, atomTruthy, hsne]
      rw [if_pos htr]
      exact titleOk_dset_title hsne
    case isFalse => exact hB
  split
  · exact titleOk_dset_ne (by decide) _ hC
  · exact hC

lemma pageStep2_titleOk (t : List (String × TVal))
    (e : String × PropPayload)
    (h2 : slugify e.1 = "title" → e.2.typeTag = "title")
    (ht : TitleOk t) : TitleOk (pageStep2 t e) := by
  unfold pageStep2
  split
  · exact ht
  · simp only []
    have hA : TitleOk
        (setTaskProp t e.1
          (extract_property_value e.2.typeTag (some e.2))) :=
      titleOk_setTaskProp _ _ ht
    have hB : TitleOk
        (if slugify e.1 ≠ "" ∧
            ¬ dmem (setTaskProp t e.1
              (extract_property_value e.2.typeTag (some e.2))) (slugify e.1)
          then
          dset (setTaskProp t e.1
              (extract_property_value e.2.typeTag (some e.2)))
            (slugify e.1)
            (.v (extract_property_value e.2.typeTag (some e.2)))
        else
          setTaskProp t e.1
            (extract_property_value e.2.typeTag (some e.2))) := by
      split
      · by_cases hs : slugify e.1 = "title"
        · rw [hs, h2 hs]
          obtain ⟨s, hsne, hshape⟩ := decode_title_shape (some e.2)
          rw [hshape]
          exact titleOk_dset_title hsne
        · exact titleOk_dset_ne hs _ hA
      · exact hA
    split
    case isTrue hty =>
      obtain ⟨s, hsne, hshape⟩ := decode_title_shape (some e.2)
      rw [hty.1, hshape] at hB ⊢
      rw [hty.1, hshape] at hty
      exact titleOk_dset_title hsne
    case isFalse => exact hB

lemma foldl_pageStep1_titleOk (pageProps : List (String × PropPayload))
    (schema : Schema) :
    ∀ (t : List (String × TVal)),
      (∀ e ∈ schema, slugify e.1 = "title" → e.2.type = "title") →
      TitleOk t → TitleOk (schema.foldl (pageStep1 pageProps) t) := by
  induction schema with
  | nil => intro t _ ht; exact ht
  | cons e rest ih =>
    intro t h1 ht
    rw [List.foldl_cons]
    exact ih _ (fun x hx => h1 x (List.mem_cons_of_mem e hx))
      (pageStep1_titleOk pageProps t e
        (h1 e (List.mem_cons_self e rest)) ht)

lemma foldl_pageStep2_titleOk (props : List (String × PropPayload)) :
    ∀ (t : List (String × TVal)),
      (∀ e ∈ props, slugify e.1 = "title" → e.2.typeTag = "title") →
      TitleOk t → TitleOk (props.foldl pageStep2 t) := by
  induction props with
  | nil => intro t _ ht; exact ht
  | cons e rest ih =>
    intro t h2 ht
    rw [List.foldl_cons]
    exact ih _ (fun x hx => h2 x (List.mem_cons_of_mem e hx))
      (pageStep2_titleOk t e (h2 e (List.mem_cons_self e rest)) ht)

/-- Invariant for the defaulting direction: the `"title"` entry, when
present, holds the literal `"Untitled"`. -/
def UntitledOk (t : List (String × TVal)) : Prop :=
  ∀ x, dget t "title" = some x → x = TVal.v (.atom (.str "Untitled"))

lemma untitledOk_dset_ne {k : String} (hk : k ≠ "title")
    {t : List (String × TVal)} (v : TVal) (ht : UntitledOk t) :
    UntitledOk (dset t k v) := by
  intro x hx
  rw [dget_dset_ne _ _ hk] at hx
  exact ht x hx

lemma untitledOk_setTaskProp {t : List (String × TVal)} (n : String)
    (v : PyVal) (ht : UntitledOk t) : UntitledOk (setTaskProp t n v) := by
  unfold setTaskProp
  split
  · exact untitledOk_dset_ne (by decide) _ ht
  · exact ht

lemma untitledOk_dset_title {t : List (String × TVal)} :
    UntitledOk (dset t "title" (.v (.atom (.str "Untitled")))) := by
  intro x hx
  rw [dget_dset_self] at hx
  exact (Option.some_inj.mp hx).symm

lemma pageStep1_untitledOk (pageProps : List (String × PropPayload))
    (t : List (String × TVal)) (e : String × PropDesc)
    (h1 : slugify e.1 = "title" → e.2.type = "title")
    (hi : e.2.type = "title" →
      extract_property_value e.2.type (dget pageProps e.1)
        = .atom (.str "Untitled"))
    (ht : UntitledOk t) : UntitledOk (pageStep1 pageProps t e) := by
  unfold pageStep1
  simp only []
  have hA : UntitledOk
      (setTaskProp t e.1
        (extract_property_value e.2.type (dget pageProps e.1))) :=
    untitledOk_setTaskProp _ _ ht
  have hB : UntitledOk
      (if slugify e.1 ≠ "" then
        dset (setTaskProp t e.1
            (extract_property_value e.2.type (dget pageProps e.1)))
          (slugify e.1)
          (.v (extract_property_value e.2.type (dget pageProps e.1)))
      else
        setTaskProp t e.1
          (extract_property_value e.2.type (dget pageProps e.1))) := by
    split
    · by_cases hs : slugify e.1 = "title"
      · rw [hs, hi (h1 hs)]
        exact untitledOk_dset_title
      · exact untitledOk_dset_ne hs _ hA
    · exact hA
  have hC : UntitledOk
      (if e.2.type = "title" then
        dset (if slugify e.1 ≠ "" then
            dset (setTaskProp t e.1
                (extract_property_value e.2.type (dget pageProps e.1)))
              (slugify e.1)
              (.v (extract_property_value e.2.type (dget pageProps e.1)))
          else
            setTaskProp t e.1
              (extract_property_value e.2.type (dget pageProps e.1)))
          "title"
          (.v (if pyTruthy
              (extract_property_value e.2.type (dget pageProps e.1)) then
            extract_property_value e.2.type (dget pageProps e.1)
          else .atom (.str "Untitled")))
      else
        (if slugify e.1 ≠ "" then
          dset (setTaskProp t e.1
              (extract_property_value e.2.type (dget pageProps e.1)))
            (slugify e.1)
            (.v (extract_property_value e.2.type (dget pageProps e.1)))
        else
          setTaskProp t e.1
            (extract_property_value e.2.type (dget pageProps e.1)))) := by
    split
    case isTrue hty =>
      rw [hi hty]
      rw [if_pos
        (show pyTruthy (PyVal.atom (.str "Untitled")) = true by decide)]
      exact untitledOk_dset_title
    case isFalse => exact hB
  split
  · exact untitledOk_dset_ne (by decide) _ hC
  · exact hC

lemma pageStep2_untitledOk (t : List (String × TVal))
    (e : String × PropPayload)
    (h2 : slugify e.1 = "title" → e.2.typeTag = "title")
    (hii : e.2.typeTag = "title" →
      extract_property_value e.2.typeTag (some e.2) = .atom (.str "Untitled"))
    (ht : UntitledOk t) : UntitledOk (pageStep2 t e) := by
  unfold pageStep2
  split
  · exact ht
  · simp only []
    have hA : UntitledOk
        (setTaskProp t e.1
          (extract_property_value e.2.typeTag (some e.2))) :=
      untitledOk_setTaskProp _ _ ht
    have hB : UntitledOk
        (if slugify e.1 ≠ "" ∧
            ¬ dmem (setTaskProp t e.1
              (extract_property_value e.2.typeTag (some e.2))) (slugify e.1)
          then
          dset (setTaskProp t e.1
              (extract_property_value e.2.typeTag (some e.2)))
            (slugify e.1)
            (.v (extract_property_value e.2.typeTag (some e.2)))
        else
          setTaskProp t e.1
            (extract_property_value e.2.typeTag (some e.2))) := by
      split
      · by_cases hs : slugify e.1 = "title"
        · rw [hs, hii (h2 hs)]
          exact untitledOk_dset_title
        · exact untitledOk_dset_ne hs _ hA
      · exact hA
    split
    case isTrue hty =>
      rw [hii hty.1] at hB ⊢
      exact untitledOk_dset_title
    case isFalse => exact hB

lemma foldl_pageStep1_untitledOk (pageProps : List (String × PropPayload))
    (schema : Schema) :
    ∀ (t : List (String × TVal)),
      (∀ e ∈ schema, slugify e.1 = "title" → e.2.type = "title") →
      (∀ e ∈ schema, e.2.type = "title" →
        extract_property_value e.2.type (dget pageProps e.1)
          = .atom (.str "Untitled")) →
      UntitledOk t → UntitledOk (schema.foldl (pageStep1 pageProps) t) := by
  induction schema with
  | nil => intro t _ _ ht; exact ht
  | cons e rest ih =>
    intro t h1 hi ht
    rw [List.foldl_cons]
    exact ih _ (fun x hx => h1 x (List.mem_cons_of_mem e hx))
      (fun x hx => hi x (List.mem_cons_of_mem e hx))
      (pageStep1_untitledOk pageProps t e (h1 e (List.mem_cons_self e rest))
        (hi e (List.mem_cons_self e rest)) ht)

lemma foldl_pageStep2_untitledOk (props : List (String × PropPayload)) :
    ∀ (t : List (String × TVal)),
      (∀ e ∈ props, slugify e.1 = "title" → e.2.typeTag = "title") →
      (∀ e ∈ props, e.2.typeTag = "title" →
        extract_property_value e.2.typeTag (some e.2)
          = .atom (.str "Untitled")) →
      UntitledOk t → UntitledOk (props.foldl pageStep2 t) := by
  induction props with
  | nil => intro t _ _ ht; exact ht
  | cons e rest ih =>
    intro t h2 hii ht
    rw [List.foldl_cons]
    exact ih _ (fun x hx => h2 x (List.mem_cons_of_mem e hx))
      (fun x hx => hii x (List.mem_cons_of_mem e hx))
      (pageStep2_untitledOk t e (h2 e (List.mem_cons_self e rest))
        (hii e (List.mem_cons_self e rest)) ht)

/-- The trailing `task`/`task_text` aliasing writes only `"task_text"`. -/
lemma taskText_preserves (t3 : List (String × TVal)) {k : String}
    (hk : k ≠ "task_text") :
    dget (match dget t3 "task", dmem t3 "task_text" with
      | some tv, false => dset t3 "task_text" tv
      | _, _ => t3) k = dget t3 k := by
  cases h : dget t3 "task" with
  | none => rfl
  | some tv =>
    cases h2 : dmem t3 "task_text" with
    | false => exact dget_dset_ne t3 tv (fun he => hk he.symm)
    | true => rfl

lemma taskText_preserves_title (t3 : List (String × TVal)) :
    dget (match dget t3 "task", dmem t3 "task_text" with
      | some tv, false => dset t3 "task_text" tv
      | _, _ => t3) "title" = dget t3 "title" :=
  taskText_preserves t3 (by decide)

lemma setTaskProp_dget_ne {k : String} (hk : k ≠ "properties")
    (t : List (String × TVal)) (n : String) (v : PyVal) :
    dget (setTaskProp t n v) k = dget t k := by
  unfold setTaskProp
  split
  · exact dget_dset_ne t _ (fun he => hk he.symm)
  · rfl

/-- A schema entry that is not `"Status"` and whose slug is not
`"status"` leaves the `"status"` key untouched. -/
lemma pageStep1_preserves_status (pageProps : List (String × PropPayload))
    (t : List (String × TVal)) (e : String × PropDesc)
    (hslug : slugify e.1 ≠ "status") :
    dget (pageStep1 pageProps t e) "status" = dget t "status" := by
  unfold pageStep1
  simp only []
  have h1 : dget (setTaskProp t e.1
      (extract_property_value e.2.type (dget pageProps e.1))) "status"
      = dget t "status" := setTaskProp_dget_ne (by decide) _ _ _
  split
  · rw [dget_dset_ne _ _ (by decide)]
    split
    · rw [dget_dset_ne _ _ (by decide)]
      split
      · rw [dget_dset_ne _ _ hslug]
        exact h1
      · exact h1
    · split
      · rw [dget_dset_ne _ _ hslug]
        exact h1
      · exact h1
  · split
    · rw [dget_dset_ne _ _ (by decide)]
      split
      · rw [dget_dset_ne _ _ hslug]
        exact h1
      · exact h1
    · split
      · rw [dget_dset_ne _ _ hslug]
        exact h1
      · exact h1

/-- Processing the `"Status"` schema entry stores its decoded value under
the `"status"` slug. -/
lemma pageStep1_sets_status (pageProps : List (String × PropPayload))
    (t : List (String × TVal)) (d : PropDesc) :
    dget (pageStep1 pageProps t ("Status", d)) "status"
      = some (TVal.v (extract_property_value d.type
          (dget pageProps "Status"))) := by
  unfold pageStep1
  simp only []
  have hslug : slugify "Status" = "status" := by decide
  split
  case isTrue hnotes => exact absurd hnotes.1 (by decide)
  case isFalse =>
    have hmid : dget (if slugify "Status" ≠ "" then
        dset (setTaskProp t "Status"
            (extract_property_value d.type (dget pageProps "Status")))
          (slugify "Status")
          (.v (extract_property_value d.type (dget pageProps "Status")))
      else
        setTaskProp t "Status"
          (extract_property_value d.type (dget pageProps "Status")))
        "status"
        = some (TVal.v (extract_property_value d.type
            (dget pageProps "Status"))) := by
      rw [if_pos (by decide), hslug, dget_dset_self]
    split
    · rw [dget_dset_ne _ _ (by decide)]
      exact hmid
    · exact hmid

lemma fold1_preserves_status (pageProps : List (String × PropPayload)) :
    ∀ (l : List (String × PropDesc)) (t : List (String × TVal)),
      (∀ e ∈ l, slugify e.1 ≠ "status") →
      dget (l.foldl (pageStep1 pageProps) t) "status" = dget t "status" := by
  intro l
  induction l with
  | nil => intro t _; rfl
  | cons e rest ih =>
    intro t h
    rw [List.foldl_cons,
      ih _ (fun x hx => h x (List.mem_cons_of_mem _ hx)),
      pageStep1_preserves_status _ _ _ (h e (List.mem_cons_self _ _))]

/-- After the schema loop, `"status"` holds the decoded `Status` value,
provided `"Status"` is the only schema property slugifying to
`"status"`. -/
lemma fold1_status (pageProps : List (String × PropPayload)) :
    ∀ (schema : Schema) (t : List (String × TVal)) (d : PropDesc),
      (schema.map Prod.fst).Nodup →
      (∀ e ∈ schema, slugify e.1 = "status" → e.1 = "Status") →
      lookupProp schema "Status" = some d →
      dget (schema.foldl (pageStep1 pageProps) t) "status"
        = some (TVal.v (extract_property_value d.type
            (dget pageProps "Status"))) := by
  intro schema
  induction schema with
  | nil => intro t d _ _ hl; simp [lookupProp, dget] at hl
  | cons e rest ih =>
    intro t d hNd hSlug hl
    obtain ⟨n, dd⟩ := e
    rw [List.foldl_cons]
    by_cases he : n = "Status"
    · subst he
      have hd : d = dd := by
        unfold lookupProp dget at hl
        simp at hl
        exact hl.symm
      subst hd
      have hrest : ∀ x ∈ rest, slugify x.1 ≠ "status" := by
        intro x hx hs
        have hx1 := hSlug x (List.mem_cons_of_mem _ hx) hs
        have hmm : "Status" ∈ rest.map Prod.fst := by
          rw [← hx1]
          exact List.mem_map_of_mem Prod.fst hx
        exact (List.nodup_cons.mp (by simpa using hNd)).1 hmm
      rw [fold1_preserves_status pageProps rest _ hrest,
        pageStep1_sets_status]
    · have hl2 : lookupProp rest "Status" = some d := by
        unfold lookupProp dget at hl ⊢
        rw [List.find?_cons_of_neg] at hl
        · exact hl
        · simp [he]
      exact ih (pageStep1 pageProps t (n, dd)) d
        (by simpa using (List.nodup_cons.mp (by simpa using hNd)).2)
        (fun x hx => hSlug x (List.mem_cons_of_mem _ hx)) hl2

lemma setTaskProp_dmem_status (t : List (String × TVal)) (n : String)
    (v : PyVal) : dmem (setTaskProp t n v) "status" = dmem t "status" := by
  simp [dmem, setTaskProp_dget_ne (by decide : "status" ≠ "properties")]

/-- The payload-fallback loop never overwrites an already-present
`"status"` entry. -/
lemma pageStep2_preserves_status (t : List (String × TVal))
    (e : String × PropPayload) (hS : dmem t "status" = true) :
    dget (pageStep2 t e) "status" = dget t "status" := by
  unfold pageStep2
  split
  · rfl
  · simp only []
    have h1 : dget (setTaskProp t e.1
        (extract_property_value e.2.typeTag (some e.2))) "status"
        = dget t "status" := setTaskProp_dget_ne (by decide) _ _ _
    have hmid : dget (if slugify e.1 ≠ "" ∧
        ¬ dmem (setTaskProp t e.1
          (extract_property_value e.2.typeTag (some e.2))) (slugify e.1)
        then
        dset (setTaskProp t e.1
            (extract_property_value e.2.typeTag (some e.2)))
          (slugify e.1)
          (.v (extract_property_value e.2.typeTag (some e.2)))
      else
        setTaskProp t e.1
          (extract_property_value e.2.typeTag (some e.2))) "status"
        = dget t "status" := by
      split
      case isTrue hcond =>
        by_cases hs : slugify e.1 = "status"
        · exfalso
          apply hcond.2
          rw [hs, setTaskProp_dmem_status, hS]
        · rw [dget_dset_ne _ _ hs]
          exact h1
      case isFalse => exact h1
    split
    · rw [dget_dset_ne _ _ (by decide)]
      exact hmid
    · exact hmid

lemma fold2_preserves_status :
    ∀ (l : List (String × PropPayload)) (t : List (String × TVal)),
      dmem t "status" = true →
      dget (l.foldl pageStep2 t) "status" = dget t "status" := by
  intro l
  induction l with
  | nil => intro t _; rfl
  | cons e rest ih =>
    intro t hS
    rw [List.foldl_cons]
    have hpres := pageStep2_preserves_status t e hS
    have hS2 : dmem (pageStep2 t e) "status" = true := by
      simp [dmem, hpres]
      simpa [dmem] using hS
    rw [ih _ hS2, hpres]

/-- The `"status"` key of a produced task is the decoded `Status`
property, provided the schema has unique names, contains `Status`, and
no other property slugifies to `"status"`. -/
lemma page_to_task_status (schema : Schema) (page : Page) (d : PropDesc)
    (hNd : (schema.map Prod.fst).Nodup)
    (hSlug : ∀ e ∈ schema, slugify e.1 = "status" → e.1 = "Status")
    (hl : lookupProp schema "Status" = some d) :
    dget (page_to_task schema page) "status"
      = some (TVal.v (extract_property_value d.type
          (dget page.properties "Status"))) := by
  unfold page_to_task
  simp only []
  rw [taskText_preserves _ (by decide)]
  have h1 := fold1_status page.properties schema
    [("id", .v page.id), ("last_edited_time", .v page.last_edited_time),
     ("properties", .props []), ("_raw_properties", .raw page.properties)]
    d hNd hSlug hl
  have hS1 : dmem (schema.foldl (pageStep1 page.properties)
      [("id", .v page.id), ("last_edited_time", .v page.last_edited_time),
       ("properties", .props []), ("_raw_properties", .raw page.properties)])
      "status" = true := by
    simp [dmem, h1]
  have h2 := fold2_preserves_status page.properties _ hS1
  split
  · rw [h2, h1]
  · rw [dget_dset_ne _ _ (by decide), h2, h1]

/-- Python truthiness of a task-dict value. -/
def tvalTruthy : TVal → Bool
  | .v x => pyTruthy x
  | .props m => ¬ m.isEmpty
  | .raw m => ¬ m.isEmpty

/-- The client-side predicate
`(t.get("status") or "").strip().lower() not in COMPLETE_GROUP_NAMES`.
A truthy non-string stored under `"status"` would make Python raise an
`AttributeError` on `.strip()`; that raise is the `Except.error` case. -/
def statusKeep (t : List (String × TVal)) : Except Err Bool :=
  let sv : TVal := (dget t "status").getD (.v (.atom .none))
  if tvalTruthy sv then
    match sv with
    | .v (.atom (.str s)) => .ok (caseFold s ∉ COMPLETE_GROUP_NAMES)
    | _ => .error (.runtime "AttributeError: strip")
  else .ok (caseFold "" ∉ COMPLETE_GROUP_NAMES)

/-- The client-side completion filter of `list_active_tasks`, evaluated
left to right as the Python list comprehension is. -/
def filterNotCompleted :
    List (List (String × TVal)) → Except Err (List (List (String × TVal)))
  | [] => .ok []
  | t :: ts => do
    let keep ← statusKeep t
    let rest ← filterNotCompleted ts
    pure (if keep then t :: rest else rest)

/-- Modelled from the spec: the external document-database service's
filter semantics (§6) — `equals` compares the selected status/select
name, `contains` tests multi-select membership; the service itself is an
external collaborator, not code under src/. -/
def matchesStatusFilter (f : StatusFilter) (pg : Page) : Bool :=
  match dget pg.properties f.property with
  | some (.status sel) =>
    if f.key = "status" ∧ f.op = "equals" then decide (sel = some f.value)
    else false
  | some (.select sel) =>
    if f.key = "select" ∧ f.op = "equals" then decide (sel = some f.value)
    else false
  | some (.multi_select ns) =>
    if f.key = "multi_select" ∧ f.op = "contains" then decide (f.value ∈ ns)
    else false
  | _ => false

/-- `NotionHelper.list_active_tasks` against a given schema and remote
page set: resolve the active names, fetch (the modelled server applies
the OR of the per-name clauses; with no active names the fetch is
unfiltered), normalize each page, and filter completed tasks client-side
exactly when the active set is empty.  The remote sort by due date is not
modelled; no claim concerns ordering. -/
def list_active_tasks (schema : Schema) (db : List Page) :
    Except Err (List (List (String × TVal))) := do
  let active := active_status_names schema
  let results ←
    if active.isEmpty then pure db
    else do
      let filters ← active.mapM (status_filter schema)
      pure (db.filter (fun p => filters.any (fun f => matchesStatusFilter f p)))
  let tasks := results.map (page_to_task schema)
  if active.isEmpty then filterNotCompleted tasks else pure tasks

lemma statusKeep_sound {t : List (String × TVal)} {s : String}
    (hd : dget t "status" = some (TVal.v (.atom (.str s))))
    (hk : statusKeep t = .ok true) :
    caseFold s ∉ COMPLETE_GROUP_NAMES := by
  unfold statusKeep at hk
  rw [hd, Option.getD_some] at hk
  by_cases hs : s = ""
  · subst hs
    decide
  · rw [if_pos (by simp [tvalTruthy, pyTruthy, atomTruthy, hs])] at hk
    exact of_decide_eq_true (Except.ok.inj hk)

lemma filterNotCompleted_sound :
    ∀ (l ts : List (List (String × TVal))),
      filterNotCompleted l = .ok ts →
      ∀ t ∈ ts, ∀ s, dget t "status" = some (TVal.v (.atom (.str s))) →
        caseFold s ∉ COMPLETE_GROUP_NAMES := by
  intro l
  induction l with
  | nil =>
    intro ts h t ht
    unfold filterNotCompleted at h
    rw [← Except.ok.inj h] at ht
    exact absurd ht (by simp)
  | cons t0 rest ih =>
    intro ts h t ht s hsv
    unfold filterNotCompleted at h
    cases hk : statusKeep t0 with
    | error err => rw [hk] at h; exact absurd h (by simp [Bind.bind, Except.bind])
    | ok keep =>
      rw [hk] at h
      cases hr : filterNotCompleted rest with
      | error err =>
        rw [hr] at h
        exact absurd h (by simp [Bind.bind, Except.bind])
      | ok ts0 =>
        rw [hr] at h
        simp only [Bind.bind, Except.bind, pure, Except.pure] at h
        rw [← Except.ok.inj h] at ht
        cases keep with
        | true =>
          rw [if_pos rfl] at ht
          rcases List.mem_cons.mp ht with hteq | htr
          · subst hteq
            exact statusKeep_sound hsv hk
          · exact ih ts0 hr t htr s hsv
        | false =>
          rw [if_neg (by simp)] at ht
          exact ih ts0 hr t ht s hsv

lemma mapM_ok_mem {α β : Type} {f : α → Except Err β} :
    ∀ {l : List α} {ys : List β}, l.mapM f = .ok ys →
      ∀ y ∈ ys, ∃ x ∈ l, f x = .ok y := by
  intro l
  induction l with
  | nil =>
    intro ys h y hy
    simp only [List.mapM_nil, pure, Except.pure] at h
    rw [← Except.ok.inj h] at hy
    exact absurd hy (by simp)
  | cons x rest ih =>
    intro ys h y hy
    rw [List.mapM_cons] at h
    cases hfx : f x with
    | error e =>
      rw [hfx] at h
      exact absurd h (by simp [Bind.bind, Except.bind])
    | ok b =>
      rw [hfx] at h
      cases hr : rest.mapM f with
      | error e =>
        rw [hr] at h
        exact absurd h (by simp [Bind.bind, Except.bind])
      | ok bs =>
        rw [hr] at h
        simp only [Bind.bind, Except.bind, pure, Except.pure] at h
        rw [← Except.ok.inj h] at hy
        rcases List.mem_cons.mp hy with hyb | hybs
        · exact ⟨x, List.mem_cons_self _ _, by rw [hfx, hyb]⟩
        · obtain ⟨x0, hx0, hfx0⟩ := ih hr y hybs
          exact ⟨x0, List.mem_cons_of_mem _ hx0, hfx0⟩

lemma status_filter_ok_inv {schema : Schema} {n : String} {f : StatusFilter}
    {d : PropDesc} (hl : lookupProp schema "Status" = some d)
    (h : status_filter schema n = .ok f) :
    (d.type = "status" ∧ f = ⟨"Status", "status", "equals", n⟩)
    ∨ (d.type = "select" ∧ f = ⟨"Status", "select", "equals", n⟩)
    ∨ (d.type = "multi_select"
        ∧ f = ⟨"Status", "multi_select", "contains", n⟩) := by
  unfold status_filter at h
  rw [hl] at h
  simp only [] at h
  by_cases h1 : d.type = "status"
  · rw [if_pos h1] at h
    exact Or.inl ⟨h1, (Except.ok.inj h).symm⟩
  · rw [if_neg h1] at h
    by_cases h2 : d.type = "select"
    · rw [if_pos h2] at h
      exact Or.inr (Or.inl ⟨h2, (Except.ok.inj h).symm⟩)
    · rw [if_neg h2] at h
      by_cases h3 : d.type = "multi_select"
      · rw [if_pos h3] at h
        exact Or.inr (Or.inr ⟨h3, (Except.ok.inj h).symm⟩)
      · rw [if_neg h3] at h
        exact absurd h (by simp)

lemma matches_inv_status {p : Page} {v : String}
    (h : matchesStatusFilter ⟨"Status", "status", "equals", v⟩ p = true) :
    dget p.properties "Status" = some (.status (some v)) := by
  unfold matchesStatusFilter at h
  cases hd : dget p.properties "Status" with
  | none => rw [hd] at h; exact absurd h (by simp)
  | some pl =>
    rw [hd] at h
    cases pl <;> simp_all

lemma matches_inv_select {p : Page} {v : String}
    (h : matchesStatusFilter ⟨"Status", "select", "equals", v⟩ p = true) :
    dget p.properties "Status" = some (.select (some v)) := by
  unfold matchesStatusFilter at h
  cases hd : dget p.properties "Status" with
  | none => rw [hd] at h; exact absurd h (by simp)
  | some pl =>
    rw [hd] at h
    cases pl <;> simp_all

lemma matches_inv_multi {p : Page} {v : String}
    (h : matchesStatusFilter ⟨"Status", "multi_select", "contains", v⟩ p
      = true) :
    ∃ ns, dget p.properties "Status" = some (.multi_select ns) ∧ v ∈ ns := by
  unfold matchesStatusFilter at h
  cases hd : dget p.properties "Status" with
  | none => rw [hd] at h; exact absurd h (by simp)
  | some pl =>
    rw [hd] at h
    cases pl <;> simp_all

lemma active_nonempty_status {schema : Schema}
    (h : active_status_names schema ≠ []) :
    ∃ d, lookupProp schema "Status" = some d := by
  cases hl : lookupProp schema "Status" with
  | none =>
    exfalso
    apply h
    unfold active_status_names
    rw [hl]
  | some d => exact ⟨d, rfl⟩

lemma list_active_tasks_eq_empty {schema : Schema} {db : List Page}
    (h : active_status_names schema = []) :
    list_active_tasks schema db
      = filterNotCompleted (db.map (page_to_task schema)) := by
  unfold list_active_tasks
  rw [h]
  simp [Bind.bind, Except.bind, pure, Except.pure]

lemma list_active_tasks_eq_filters {schema : Schema} {db : List Page}
    {filters : List StatusFilter}
    (hne : ¬ (active_status_names schema).isEmpty = true)
    (hm : (active_status_names schema).mapM (status_filter schema)
      = .ok filters) :
    list_active_tasks schema db
      = .ok ((db.filter (fun p =>
          filters.any (fun f => matchesStatusFilter f p))).map
            (page_to_task schema)) := by
  unfold list_active_tasks
  rw [if_neg hne, hm]
  simp only [Bind.bind, Except.bind, pure, Except.pure]
  rw [if_neg hne]

lemma list_active_tasks_eq_error {schema : Schema} {db : List Page}
    {err : Err}
    (hne : ¬ (active_status_names schema).isEmpty = true)
    (hm : (active_status_names schema).mapM (status_filter schema)
      = .error err) :
    list_active_tasks schema db = .error err := by
  unfold list_active_tasks
  rw [if_neg hne, hm]
  simp [Bind.bind, Except.bind]

lemma extract_status_val (n : String) :
    extract_property_value "status" (some (.status (some n)))
      = .atom (.str n) := by
  simp [extract_property_value]

lemma extract_select_val (n : String) :
    extract_property_value "select" (some (.select (some n)))
      = .atom (.str n) := by
  simp [extract_property_value]

lemma extract_multi_val (ns : List String) :
    extract_property_value "multi_select" (some (.multi_select ns))
      = .list ((ns.filter (fun x => x ≠ "")).map PyAtom.str) := by
  simp [extract_property_value]

/-- C2 (counterexample): a schema that places its "Done" status option
inside a group named "Active" resolves active names to ["Done"]; the
server-side filter then returns the Done task, whose status case-folds
into the completion set, so `list_active_tasks` returns it. -/
theorem c2_counterexample :
    (list_active_tasks
      [("Status", ⟨"status", [⟨some "o1", some "Done"⟩],
        [⟨some "Active", ["o1"]⟩]⟩)]
      [⟨.atom (.str "p1"), .atom .none,
        [("Status", .status (some "Done"))]⟩]).map
      (fun ts => ts.map (fun t => dget t "status"))
    = .ok [some (.v (.atom (.str "Done")))]
    ∧ caseFold "Done" ∈ COMPLETE_GROUP_NAMES := ⟨by decide, by decide⟩

/-- C2 (amended): provided `"Status"` is the only schema property whose
slug is `"status"`, schema property names are unique, and every resolved
active-status name case-folds outside \x7bdone, completed, complete\x7d,
no task returned by a successful `list_active_tasks` carries a status
string case-folding into the completion set; and when the resolved
active-status set is empty the operation is exactly an unfiltered fetch
followed by the client-side completion filter. -/
theorem c2_list_active_tasks (schema : Schema) (db : List Page)
    (hNd : (schema.map Prod.fst).Nodup)
    (hSlug : ∀ e ∈ schema, slugify e.1 = "status" → e.1 = "Status")
    (hAct : ∀ n ∈ active_status_names schema,
      caseFold n ∉ COMPLETE_GROUP_NAMES) :
    (∀ ts, list_active_tasks schema db = .ok ts →
      ∀ t ∈ ts, ∀ s, dget t "status" = some (TVal.v (.atom (.str s))) →
        caseFold s ∉ COMPLETE_GROUP_NAMES)
    ∧ (active_status_names schema = [] →
        list_active_tasks schema db
          = filterNotCompleted (db.map (page_to_task schema))) := by
  constructor
  · intro ts hok t ht s hsv
    by_cases hAe : active_status_names schema = []
    · rw [list_active_tasks_eq_empty hAe] at hok
      exact filterNotCompleted_sound _ _ hok t ht s hsv
    · have hne : ¬ (active_status_names schema).isEmpty = true := by
        simpa [List.isEmpty_iff] using hAe
      cases hm : (active_status_names schema).mapM (status_filter schema) with
      | error err =>
        rw [list_active_tasks_eq_error hne hm] at hok
        exact absurd hok (by simp)
      | ok filters =>
        rw [list_active_tasks_eq_filters hne hm] at hok
        have hts := Except.ok.inj hok
        rw [← hts] at ht
        obtain ⟨p, hp, hpt⟩ := List.mem_map.mp ht
        have hpf := (List.mem_filter.mp hp).2
        obtain ⟨f, hf, hmatch⟩ := List.any_eq_true.mp hpf
        obtain ⟨n, hn, hsf⟩ := mapM_ok_mem hm f hf
        obtain ⟨d, hl⟩ := active_nonempty_status hAe
        have hstat := page_to_task_status schema p d hNd hSlug hl
        rw [hpt] at hstat
        rcases status_filter_ok_inv hl hsf with
          ⟨hty, hfe⟩ | ⟨hty, hfe⟩ | ⟨hty, hfe⟩
        · subst hfe
          have hpay := matches_inv_status hmatch
          rw [hty, hpay, extract_status_val] at hstat
          rw [hstat] at hsv
          have hns : n = s := by
            simpa using Option.some_inj.mp hsv
          rw [← hns]
          exact hAct n hn
        · subst hfe
          have hpay := matches_inv_select hmatch
          rw [hty, hpay, extract_select_val] at hstat
          rw [hstat] at hsv
          have hns : n = s := by
            simpa using Option.some_inj.mp hsv
          rw [← hns]
          exact hAct n hn
        · subst hfe
          obtain ⟨ns, hpay, _⟩ := matches_inv_multi hmatch
          rw [hty, hpay, extract_multi_val] at hstat
          rw [hstat] at hsv
          exact absurd hsv (by simp)
  · exact fun h => list_active_tasks_eq_empty h

def c2wSchema : Schema :=
  [("Status", ⟨"status",
    [⟨some "1", some "To Do"⟩, ⟨some "2", some "Done"⟩],
    [⟨some "Active", ["1"]⟩, ⟨some "Complete", ["2"]⟩]⟩)]

def c2wP1 : Page :=
  ⟨.atom (.str "p1"), .atom .none, [("Status", .status (some "To Do"))]⟩

def c2wDb : List Page :=
  [c2wP1, ⟨.atom (.str "p2"), .atom .none,
    [("Status", .status (some "Done"))]⟩]

/-- C2 (witness): the amended guarantee evaluated on a concrete schema
and remote page set. -/
theorem c2_list_active_tasks_witness :
    caseFold "To Do" ∉ COMPLETE_GROUP_NAMES := by
  have h := (c2_list_active_tasks c2wSchema c2wDb
    (by decide) (by decide) (by decide)).1
  exact h [page_to_task c2wSchema c2wP1] (by decide)
    (page_to_task c2wSchema c2wP1) (by simp) "To Do" (by decide)

/-- A normalized value valid for a type tag: the shapes decode produces
for that tag, with wire strings (option names, date starts, urls)
non-empty as the remote system guarantees. -/
def validStrOpt : PyVal → Bool
  | .atom .none => true
  | .atom (.str s) => s ≠ ""
  | _ => false

def validNum : PyVal → Bool
  | .atom .none => true
  | .atom (.num _) => true
  | _ => false

def validCheckbox : PyVal → Bool
  | .atom (.bool _) => true
  | _ => false

def validAtomName : PyAtom → Bool
  | .str s => s ≠ ""
  | _ => false

def validStrList : PyVal → Bool
  | .list xs => xs.all validAtomName
  | _ => false

def validFor (tag : String) (v : PyVal) : Bool :=
  if tag = "select" ∨ tag = "status" ∨ tag = "date" ∨ tag = "url"
      ∨ tag = "email" ∨ tag = "phone_number" then validStrOpt v
  else if tag = "number" then validNum v
  else if tag = "checkbox" then validCheckbox v
  else if tag = "multi_select" ∨ tag = "people" then validStrList v
  else false

lemma multi_roundtrip (xs : List PyAtom)
    (h : xs.all validAtomName = true) :
    ((xs.filterMap (fun e =>
        if e = PyAtom.none ∨ e = PyAtom.str "" then Option.none
        else some (atomStr e))).filter
      (fun n => n ≠ "")).map PyAtom.str = xs := by
  induction xs with
  | nil => rfl
  | cons a rest ih =>
    rw [List.all_cons, Bool.and_eq_true] at h
    cases a with
    | str s =>
      have hs : s ≠ "" := by simpa [validAtomName] using h.1
      have h1 : (fun e =>
          if e = PyAtom.none ∨ e = PyAtom.str "" then Option.none
          else some (atomStr e)) (PyAtom.str s) = some s := by
        simp [hs, atomStr]
      rw [@List.filterMap_cons_some PyAtom String _ _ _ _ h1,
        List.filter_cons, if_pos (by simpa using hs), List.map_cons,
        ih h.2]
    | none => exact absurd h.1 (by simp [validAtomName])
    | num q => exact absurd h.1 (by simp [validAtomName])
    | bool b => exact absurd h.1 (by simp [validAtomName])

/-- C1 (counterexample): for the supported tag `people` and the valid
normalized value `["Alice"]`, encode falls back to a rich-text payload,
which the `people` decoder reads back as the empty list — the round trip
is not value-preserving although `people` is not among the claim's
exceptions. -/
theorem c1_counterexample :
    (value_for_property [("People", ⟨"people", [], []⟩)] "People"
        (.list [.str "Alice"])).map
      (fun p => extract_property_value "people" (some p))
      = .ok (.list [])
    ∧ PyVal.list ([] : List PyAtom) ≠ .list [.str "Alice"] :=
  ⟨by decide, by decide⟩

/-- C1 (amended): decode∘encode is the identity on valid normalized
values for every supported tag except title and rich_text (the
documented formatting collapse), people (encode has no people branch and
falls back to rich_text, decoding back to the empty list), and the null
checkbox value (which encodes as false). -/
theorem c1_codec_roundtrip (schema : Schema) (name : String) (d : PropDesc)
    (v : PyVal) (hl : lookupProp schema name = some d)
    (htag : d.type ∈ ["select", "status", "multi_select", "number", "date",
      "checkbox", "url", "email", "phone_number"])
    (hv : validFor d.type v = true) :
    ∃ p, value_for_property schema name v = .ok p
      ∧ extract_property_value d.type (some p) = v := by
  unfold value_for_property
  rw [hl]
  simp only []
  simp only [List.mem_cons, List.mem_singleton, List.not_mem_nil,
    or_false] at htag
  rcases htag with hty | hty | hty | hty | hty | hty | hty | hty | hty <;>
    rw [hty] at hv ⊢
  · rcases v with ⟨a⟩ | xs
    · rcases a with _ | s | q | b
      · exact ⟨.select Option.none,
          by simp [pyTruthy, atomTruthy], by simp [extract_property_value]⟩
      · have hs : s ≠ "" := by simpa [validFor, validStrOpt, validNum, validCheckbox, validStrList] using hv
        exact ⟨.select (some s),
          by simp [pyTruthy, atomTruthy, pyStr, atomStr, hs],
          by simp [extract_property_value]⟩
      · exact absurd hv (by simp [validFor, validStrOpt, validNum, validCheckbox, validStrList])
      · exact absurd hv (by simp [validFor, validStrOpt, validNum, validCheckbox, validStrList])
    · exact absurd hv (by simp [validFor, validStrOpt, validNum, validCheckbox, validStrList])
  · rcases v with ⟨a⟩ | xs
    · rcases a with _ | s | q | b
      · exact ⟨.status Option.none,
          by simp [pyTruthy, atomTruthy], by simp [extract_property_value]⟩
      · have hs : s ≠ "" := by simpa [validFor, validStrOpt, validNum, validCheckbox, validStrList] using hv
        exact ⟨.status (some s),
          by simp [pyTruthy, atomTruthy, pyStr, atomStr, hs],
          by simp [extract_property_value]⟩
      · exact absurd hv (by simp [validFor, validStrOpt, validNum, validCheckbox, validStrList])
      · exact absurd hv (by simp [validFor, validStrOpt, validNum, validCheckbox, validStrList])
    · exact absurd hv (by simp [validFor, validStrOpt, validNum, validCheckbox, validStrList])
  · rcases v with ⟨a⟩ | xs
    · exact absurd hv (by rcases a <;> simp [validFor, validStrOpt, validNum, validCheckbox, validStrList])
    · have hall : xs.all validAtomName = true := by
        unfold validFor at hv
        rw [if_neg (by decide), if_neg (by decide), if_neg (by decide),
          if_pos (by decide)] at hv
        exact hv
      rcases hxs : xs with _ | ⟨a0, rest⟩
      · exact ⟨.multi_select [],
          by simp [pyTruthy], by simp [extract_property_value]⟩
      · refine ⟨.multi_select ((a0 :: rest).filterMap (fun e =>
          if e = PyAtom.none ∨ e = PyAtom.str "" then Option.none
          else some (atomStr e))), ?_, ?_⟩
        · simp [pyTruthy]
        · rw [extract_multi_val, multi_roundtrip (a0 :: rest) (hxs ▸ hall)]
  · rcases v with ⟨a⟩ | xs
    · rcases a with _ | s | q | b
      · exact ⟨.number Option.none,
          by simp, by simp [extract_property_value]⟩
      · exact absurd hv (by simp [validFor, validStrOpt, validNum, validCheckbox, validStrList])
      · exact ⟨.number (some q),
          by simp [pyFloat], by simp [extract_property_value]⟩
      · exact absurd hv (by simp [validFor, validStrOpt, validNum, validCheckbox, validStrList])
    · exact absurd hv (by simp [validFor, validStrOpt, validNum, validCheckbox, validStrList])
  · rcases v with ⟨a⟩ | xs
    · rcases a with _ | s | q | b
      · exact ⟨.date Option.none,
          by simp [pyTruthy, atomTruthy], by simp [extract_property_value]⟩
      · have hs : s ≠ "" := by simpa [validFor, validStrOpt, validNum, validCheckbox, validStrList] using hv
        exact ⟨.date (some s),
          by simp [pyTruthy, atomTruthy, pyStr, atomStr, hs],
          by simp [extract_property_value]⟩
      · exact absurd hv (by simp [validFor, validStrOpt, validNum, validCheckbox, validStrList])
      · exact absurd hv (by simp [validFor, validStrOpt, validNum, validCheckbox, validStrList])
    · exact absurd hv (by simp [validFor, validStrOpt, validNum, validCheckbox, validStrList])
  · rcases v with ⟨a⟩ | xs
    · rcases a with _ | s | q | b
      · exact absurd hv (by simp [validFor, validStrOpt, validNum, validCheckbox, validStrList])
      · exact absurd hv (by simp [validFor, validStrOpt, validNum, validCheckbox, validStrList])
      · exact absurd hv (by simp [validFor, validStrOpt, validNum, validCheckbox, validStrList])
      · exact ⟨.checkbox b,
          by simp [pyTruthy, atomTruthy], by simp [extract_property_value]⟩
    · exact absurd hv (by simp [validFor, validStrOpt, validNum, validCheckbox, validStrList])
  · rcases v with ⟨a⟩ | xs
    · rcases a with _ | s | q | b
      · exact ⟨.url (.atom .none),
          by simp [pyTruthy, atomTruthy], by simp [extract_property_value]⟩
      · have hs : s ≠ "" := by simpa [validFor, validStrOpt, validNum, validCheckbox, validStrList] using hv
        exact ⟨.url (.atom (.str s)),
          by simp [pyTruthy, atomTruthy, hs],
          by simp [extract_property_value]⟩
      · exact absurd hv (by simp [validFor, validStrOpt, validNum, validCheckbox, validStrList])
      · exact absurd hv (by simp [validFor, validStrOpt, validNum, validCheckbox, validStrList])
    · exact absurd hv (by simp [validFor, validStrOpt, validNum, validCheckbox, validStrList])
  · rcases v with ⟨a⟩ | xs
    · rcases a with _ | s | q | b
      · exact ⟨.email (.atom .none),
          by simp [pyTruthy, atomTruthy], by simp [extract_property_value]⟩
      · have hs : s ≠ "" := by simpa [validFor, validStrOpt, validNum, validCheckbox, validStrList] using hv
        exact ⟨.email (.atom (.str s)),
          by simp [pyTruthy, atomTruthy, hs],
          by simp [extract_property_value]⟩
      · exact absurd hv (by simp [validFor, validStrOpt, validNum, validCheckbox, validStrList])
      · exact absurd hv (by simp [validFor, validStrOpt, validNum, validCheckbox, validStrList])
    · exact absurd hv (by simp [validFor, validStrOpt, validNum, validCheckbox, validStrList])
  · rcases v with ⟨a⟩ | xs
    · rcases a with _ | s | q | b
      · exact ⟨.phone_number (.atom .none),
          by simp [pyTruthy, atomTruthy], by simp [extract_property_value]⟩
      · have hs : s ≠ "" := by simpa [validFor, validStrOpt, validNum, validCheckbox, validStrList] using hv
        exact ⟨.phone_number (.atom (.str s)),
          by simp [pyTruthy, atomTruthy, hs],
          by simp [extract_property_value]⟩
      · exact absurd hv (by simp [validFor, validStrOpt, validNum, validCheckbox, validStrList])
      · exact absurd hv (by simp [validFor, validStrOpt, validNum, validCheckbox, validStrList])
    · exact absurd hv (by simp [validFor, validStrOpt, validNum, validCheckbox, validStrList])

lemma value_for_property_ok (schema : Schema) (name : String) (v : PyVal)
    (d : PropDesc) (hl : lookupProp schema name = some d) :
    ∃ p, value_for_property schema name v = .ok p := by
  unfold value_for_property
  rw [hl]
  simp only []
  by_cases h1 : d.type = "title"
  · rw [if_pos h1]; exact ⟨_, rfl⟩
  rw [if_neg h1]
  by_cases h2 : d.type = "rich_text"
  · rw [if_pos h2]
    split <;> first
      | exact ⟨_, rfl⟩
      | (split <;> exact ⟨_, rfl⟩)
  rw [if_neg h2]
  by_cases h3 : d.type = "number"
  · rw [if_pos h3]
    split
    · exact ⟨_, rfl⟩
    · cases pyFloat v <;> exact ⟨_, rfl⟩
  rw [if_neg h3]
  by_cases h4 : d.type = "date"
  · rw [if_pos h4]; split <;> exact ⟨_, rfl⟩
  rw [if_neg h4]
  by_cases h5 : d.type = "select"
  · rw [if_pos h5]; split <;> exact ⟨_, rfl⟩
  rw [if_neg h5]
  by_cases h6 : d.type = "status"
  · rw [if_pos h6]; split <;> exact ⟨_, rfl⟩
  rw [if_neg h6]
  by_cases h7 : d.type = "multi_select"
  · rw [if_pos h7]; split <;> exact ⟨_, rfl⟩
  rw [if_neg h7]
  by_cases h8 : d.type = "checkbox"
  · rw [if_pos h8]; exact ⟨_, rfl⟩
  rw [if_neg h8]
  by_cases h9 : d.type = "url"
  · rw [if_pos h9]; exact ⟨_, rfl⟩
  rw [if_neg h9]
  by_cases h10 : d.type = "email"
  · rw [if_pos h10]; exact ⟨_, rfl⟩
  rw [if_neg h10]
  by_cases h11 : d.type = "phone_number"
  · rw [if_pos h11]; exact ⟨_, rfl⟩
  rw [if_neg h11]
  split <;> exact ⟨_, rfl⟩

/-- C7: encode raises exactly when the target property is absent from
the schema; for present properties encode is total over every input —
values failing the numeric parse encode the number as null, and
unrecognized property types fall back to a rich_text write payload — and
decode returns null for every unrecognized type tag. -/
theorem c7_codec_failure_semantics (schema : Schema) (name : String)
    (v : PyVal) :
    ((∃ m, value_for_property schema name v = .error m)
      ↔ lookupProp schema name = Option.none)
    ∧ (∀ d, lookupProp schema name = some d →
        ∃ p, value_for_property schema name v = .ok p)
    ∧ (∀ d, lookupProp schema name = some d → d.type = "number" →
        v ≠ PyVal.atom .none → v ≠ PyVal.atom (.str "") →
        pyFloat v = Option.none →
        value_for_property schema name v = .ok (.number Option.none))
    ∧ (∀ d, lookupProp schema name = some d →
        d.type ∉ ["title", "rich_text", "number", "date", "select",
          "status", "multi_select", "checkbox", "url", "email",
          "phone_number"] →
        value_for_property schema name v
          = .ok (if v = PyVal.atom .none ∨ v = PyVal.atom (.str "")
              then .rich_text []
              else .rich_text [⟨some (pyStr v), Option.none⟩]))
    ∧ (∀ tag payload, tag ∉ ["title", "rich_text", "select", "status",
        "multi_select", "number", "date", "checkbox", "url", "email",
        "phone_number", "people"] →
        extract_property_value tag payload = PyVal.atom .none) := by
  refine ⟨⟨?_, ?_⟩, ?_, ?_, ?_, ?_⟩
  · rintro ⟨m, hm⟩
    cases hl : lookupProp schema name with
    | none => rfl
    | some d =>
      obtain ⟨p, hp⟩ := value_for_property_ok schema name v d hl
      rw [hp] at hm
      exact absurd hm (by simp)
  · intro hl
    refine ⟨.config ("Unknown property: " ++ name), ?_⟩
    unfold value_for_property
    rw [hl]
  · exact fun d hl => value_for_property_ok schema name v d hl
  · intro d hl hty hv1 hv2 hpf
    unfold value_for_property
    rw [hl]
    simp [hty, hpf, hv1, hv2]
  · intro d hl hnot
    unfold value_for_property
    rw [hl]
    simp only []
    rw [if_neg (fun h => hnot (by rw [h]; decide)),
      if_neg (fun h => hnot (by rw [h]; decide)),
      if_neg (fun h => hnot (by rw [h]; decide)),
      if_neg (fun h => hnot (by rw [h]; decide)),
      if_neg (fun h => hnot (by rw [h]; decide)),
      if_neg (fun h => hnot (by rw [h]; decide)),
      if_neg (fun h => hnot (by rw [h]; decide)),
      if_neg (fun h => hnot (by rw [h]; decide)),
      if_neg (fun h => hnot (by rw [h]; decide)),
      if_neg (fun h => hnot (by rw [h]; decide)),
      if_neg (fun h => hnot (by rw [h]; decide))]
    by_cases hc : v = PyVal.atom PyAtom.none ∨ v = PyVal.atom (PyAtom.str "")
    · rw [if_pos hc, if_pos hc]
    · rw [if_neg hc, if_neg hc]
  · intro tag payload hnot
    unfold extract_property_value
    rw [if_neg (fun h => hnot (by rw [h]; decide)),
      if_neg (fun h => hnot (by rw [h]; decide)),
      if_neg (fun h => hnot (by rw [h]; decide)),
      if_neg (fun h => hnot (by rw [h]; decide)),
      if_neg (fun h => hnot (by rw [h]; decide)),
      if_neg (fun h => hnot (by rw [h]; decide)),
      if_neg (fun h => hnot (by rw [h]; decide)),
      if_neg (fun h => hnot (by rw [h]; decide)),
      if_neg (fun h => hnot (by rw [h]; decide)),
      if_neg (fun h => hnot (by rw [h]; decide)),
      if_neg (fun h => hnot (by rw [h]; decide)),
      if_neg (fun h => hnot (by rw [h]; decide))]

/-- C7 (witness): a string that fails the numeric parse encodes the
number property as null; an unrecognized tag decodes to null. -/
theorem c7_codec_failure_semantics_witness :
    value_for_property [("N", ⟨"number", [], []⟩)] "N" (.atom (.str "abc"))
      = .ok (.number Option.none)
    ∧ extract_property_value "formula" (some (.checkbox true))
      = PyVal.atom .none := by
  have h := c7_codec_failure_semantics [("N", ⟨"number", [], []⟩)] "N"
    (.atom (.str "abc"))
  exact ⟨h.2.2.1 ⟨"number", [], []⟩ (by decide) rfl (by decide) (by decide)
      (by decide),
    h.2.2.2.2 "formula" (some (.checkbox true)) (by decide)⟩

/-- C1 (witness): the round trip at the select tag and value "Done". -/
theorem c1_codec_roundtrip_witness :
    ∃ p, value_for_property [("S", ⟨"select", [], []⟩)] "S"
        (.atom (.str "Done")) = .ok p
      ∧ extract_property_value "select" (some p) = .atom (.str "Done") :=
  c1_codec_roundtrip [("S", ⟨"select", [], []⟩)] "S" ⟨"select", [], []⟩
    (.atom (.str "Done")) (by decide) (by decide) (by decide)

/-- One `pages.update`/`pages.create` property write sent to the
remote. -/
structure UpdateReq where
  page_id : PyVal
  properties : List (String × PropPayload)
  deriving DecidableEq

/-- `NotionHelper.update_property`: schema membership check, codec
encode, single-property patch. -/
def update_property (schema : Schema) (page_id : String)
    (property_name : String) (new_value : PyVal) : Except Err UpdateReq :=
  if ¬ dmem schema property_name then
    .error (.config ("Unknown property: " ++ property_name))
  else
    match value_for_property schema property_name new_value with
    | .error e => .error e
    | .ok notion_value =>
        .ok ⟨.atom (.str page_id), [(property_name, notion_value)]⟩

/-- The first rich-text run's plain text of the "Notes or Description"
property (`notes["rich_text"][0].get("plain_text", "")`, empty when the
property or its runs are missing). -/
def firstRunPlain (page : Page) : String :=
  match dget page.properties "Notes or Description" with
  | some (.rich_text (r :: _)) => r.plain_text.getD ""
  | _ => ""

/-- The combined notes string `append_notes` builds before slicing. -/
def combineNotes (current now text : String) : String :=
  if current ≠ "" then current ++ "\n\n[" ++ now ++ "] " ++ text
  else "[" ++ now ++ "] " ++ text

/-- `NotionHelper.append_notes`: retrieve the page (a missing page makes
`pages.retrieve` raise — the error case), read the first rich-text run of
"Notes or Description", append the timestamped line, slice to 2000
characters, write back a single run.  `now` is the formatted UTC
timestamp. -/
def append_notes (db : List Page) (now : String) (page_id : String)
    (text : String) : Except Err UpdateReq :=
  match db.find? (fun p => p.id = PyVal.atom (.str page_id)) with
  | Option.none => .error (.runtime "APIResponseError: page not found")
  | some page =>
      .ok ⟨.atom (.str page_id), [("Notes or Description",
        .rich_text [⟨some (strSlice (combineNotes (firstRunPlain page)
          now text) 2000), Option.none⟩])]⟩

/-- `TITLE_PROPERTY` (src/modules/notion_utils.py). -/
def TITLE_PROPERTY : String := "Title"

/-- `NotionHelper.create_task`: reject blank titles, encode the defaults
through the codec, create the page.  `new_page_id` is the id the remote
returns for the created page; an error result means no create call was
issued (the encode loop runs before `pages.create`). -/
def encodeStep (schema : Schema) (acc : List (String × PropPayload))
    (kv : String × PyVal) : Except Err (List (String × PropPayload)) :=
  match value_for_property schema kv.1 kv.2 with
  | .error e => .error e
  | .ok pv => .ok (dset acc kv.1 pv)

def create_task (schema : Schema) (new_page_id : String) (title : String)
    (defaults : List (String × PyVal)) :
    Except Err (List (String × PropPayload) × String) :=
  if strTrim title = "" then
    .error (.validation "Title cannot be empty")
  else
    match defaults.foldlM (encodeStep schema)
        [(TITLE_PROPERTY, .title [⟨some title, Option.none⟩])] with
    | .error e => .error e
    | .ok properties => .ok (properties, new_page_id)

/-- The uniform two-field dispatcher result. -/
structure ToolResult where
  success : Bool
  message : String
  deriving DecidableEq

/-- `needle` starts the character list `hay`. -/
def startsWithChars : List Char → List Char → Bool
  | [], _ => true
  | _ :: _, [] => false
  | a :: as, b :: bs => a = b && startsWithChars as bs

/-- Substring containment over character lists. -/
def containsSubChars (hay needle : List Char) : Bool :=
  match hay with
  | [] => needle.isEmpty
  | _ :: rest => startsWithChars needle hay || containsSubChars rest needle

/-- Python `needle in hay` on strings. -/
def strContains (hay needle : String) : Bool :=
  containsSubChars hay.data needle.data

/-- Joined plain text of a run list (no strip). -/
def plainText (runs : List Run) : String :=
  String.join (runs.map (fun r => r.plain_text.getD ""))

/-- Modelled from the spec: the remote title-search filter of
`find_task_by_title` (`\x7b"property": "Task", "rich_text":
\x7b"contains": needle\x7d\x7d`, §4.4/§6) matches a page when the plain
text of its "Task" property (title or rich text) contains the needle as
a substring; the service is an external collaborator, not code under
src/. -/
def titleQueryMatch (needle : String) (p : Page) : Bool :=
  match dget p.properties "Task" with
  | some (.title runs) => strContains (plainText runs) needle
  | some (.rich_text runs) => strContains (plainText runs) needle
  | _ => false

/-- `find_task_by_title` (src/modules/claude_tools.py): first matching
page's id value, `None` when nothing matches — and also when the remote
call fails (the code catches every exception and returns `None`; a
non-string needle is rejected by the remote, modelled as the non-`str`
branch). -/
def find_task_by_title (db : List Page) (task_title : PyVal) : PyVal :=
  match task_title with
  | .atom (.str needle) =>
    match db.filter (titleQueryMatch needle) with
    | [] => .atom .none
    | p :: _ => p.id
  | _ => .atom .none

/-- The existing "Notes" runs read by `add_task_notes`
(`page["properties"].get("Notes", \x7b\x7d).get("rich_text", [])`). -/
def notesRunsOf (page : Page) : List Run :=
  match dget page.properties "Notes" with
  | some (.rich_text runs) => runs
  | _ => []

/-- `update_task_status` (src/modules/claude_tools.py): resolve the
title, then write `\x7b"Status": \x7b"status": \x7b"name":
new_status\x7d\x7d\x7d` directly, without consulting the schema.  A
non-string status name is rejected by the remote (§6), which the code
catches into a failure result. -/
def update_task_status (db : List Page) (task_title new_status : PyVal) :
    ToolResult × List UpdateReq :=
  let task_id := find_task_by_title db task_title
  if ¬ pyTruthy task_id then
    (⟨false, "Could not find task: " ++ pyStr task_title⟩, [])
  else
    match new_status with
    | .atom (.str s) =>
      (⟨true, "Updated '" ++ pyStr task_title ++ "' to " ++ pyStr new_status⟩,
       [⟨task_id, [("Status", .status (some s))]⟩])
    | _ => (⟨false, "Error updating task: invalid status"⟩, [])

/-- `add_task_notes` (src/modules/claude_tools.py): resolve the title,
retrieve the page (failure is caught into a failure result), append a
new rich-text run holding the newline-prefixed timestamped line after
the existing "Notes" runs — no truncation. -/
def add_task_notes (db : List Page) (now : String)
    (task_title notes : PyVal) : ToolResult × List UpdateReq :=
  let task_id := find_task_by_title db task_title
  if ¬ pyTruthy task_id then
    (⟨false, "Could not find task: " ++ pyStr task_title⟩, [])
  else
    match db.find? (fun p => p.id = task_id) with
    | Option.none => (⟨false, "Error adding notes: page not found"⟩, [])
    | some page =>
      let new_note_text := "\n\n[" ++ now ++ "] " ++ pyStr notes
      (⟨true, "Added notes to '" ++ pyStr task_title ++ "'"⟩,
       [⟨task_id, [("Notes", .rich_text
          (notesRunsOf page ++ [⟨some new_note_text, Option.none⟩]))]⟩])

/-- `tool_input[k]`: `KeyError` (the error case) when the key is
absent. -/
def getItem (d : List (String × PyVal)) (k : String) : Except Err PyVal :=
  match dget d k with
  | some v => .ok v
  | Option.none => .error (.runtime ("KeyError: " ++ k))

/-- `execute_tool` (src/modules/claude_tools.py): dispatch on the tool
name; the required-field subscripts raise `KeyError` uncaught; any other
name yields the fixed Unknown-tool failure result. -/
def execute_tool (db : List Page) (now : String) (tool_name : String)
    (tool_input : List (String × PyVal)) :
    Except Err (ToolResult × List UpdateReq) :=
  if tool_name = "update_task_status" then
    match getItem tool_input "task_title", getItem tool_input "new_status" with
    | .error e, _ => .error e
    | _, .error e => .error e
    | .ok t, .ok s => .ok (update_task_status db t s)
  else if tool_name = "add_task_notes" then
    match getItem tool_input "task_title", getItem tool_input "notes" with
    | .error e, _ => .error e
    | _, .error e => .error e
    | .ok t, .ok n => .ok (add_task_notes db now t n)
  else .ok (⟨false, "Unknown tool"⟩, [])

lemma strSlice_length (s : String) (n : Nat) : (strSlice s n).length ≤ n := by
  show (s.data.take n).length ≤ n
  rw [List.length_take]
  exact min_le_left _ _

lemma strSlice_of_le (s : String) (n : Nat) (h : s.length ≤ n) :
    strSlice s n = s := by
  unfold strSlice
  rw [List.take_of_length_le h]

/-- C8 (counterexample): with two rich-text runs "A" and "B" stored in
"Notes or Description", the task's notes text is "AB", but
`append_notes` reads only the first run and writes "A\n\n[T] x" — not
the old notes followed by the new line. -/
theorem c8_counterexample :
    append_notes
      [⟨.atom (.str "p1"), .atom .none,
        [("Notes or Description",
          .rich_text [⟨Option.none, some "A"⟩, ⟨Option.none, some "B"⟩])]⟩]
      "T" "p1" "x"
      = .ok ⟨.atom (.str "p1"), [("Notes or Description",
          .rich_text [⟨some "A\n\n[T] x", Option.none⟩])]⟩
    ∧ extract_property_value "rich_text"
        (some (.rich_text [⟨Option.none, some "A"⟩, ⟨Option.none, some "B"⟩]))
        = .atom (.str "AB")
    ∧ "A\n\n[T] x" ≠ strSlice ("AB" ++ "\n\n[T] x") 2000 :=
  ⟨by decide, by decide, by decide⟩

/-- C8 (amended): `append_notes` reads the first rich-text run's plain
text of the current notes, appends the timestamped line (separated by a
blank line when the first run is non-empty), slices the combination to at
most 2000 characters, and writes it back as the single run of "Notes or
Description"; the written text is never longer than 2000 characters and
is the full combination whenever that fits. -/
theorem c8_append_notes (db : List Page) (now pid text : String)
    (page : Page)
    (hfind : db.find? (fun p => p.id = PyVal.atom (.str pid)) = some page) :
    append_notes db now pid text
      = .ok ⟨.atom (.str pid), [("Notes or Description",
          .rich_text [⟨some (strSlice
            (combineNotes (firstRunPlain page) now text) 2000),
            Option.none⟩])]⟩
    ∧ (strSlice (combineNotes (firstRunPlain page) now text) 2000).length
        ≤ 2000
    ∧ ((combineNotes (firstRunPlain page) now text).length ≤ 2000 →
        strSlice (combineNotes (firstRunPlain page) now text) 2000
          = combineNotes (firstRunPlain page) now text) := by
  refine ⟨?_, strSlice_length _ _, fun h => strSlice_of_le _ _ h⟩
  unfold append_notes
  rw [hfind]

def c8wPage : Page :=
  ⟨.atom (.str "p1"), .atom .none,
    [("Notes or Description", .rich_text [⟨Option.none, some "A"⟩])]⟩

/-- C8 (witness): the amended write equation at a concrete page. -/
theorem c8_append_notes_witness :
    append_notes [c8wPage] "T" "p1" "x"
      = .ok ⟨.atom (.str "p1"), [("Notes or Description",
          .rich_text [⟨some (strSlice
            (combineNotes (firstRunPlain c8wPage) "T" "x") 2000),
            Option.none⟩])]⟩ :=
  (c8_append_notes [c8wPage] "T" "p1" "x" c8wPage (by decide)).1

lemma value_for_property_error_config {schema : Schema} {name : String}
    {v : PyVal} {e : Err}
    (h : value_for_property schema name v = .error e) :
    ∃ m, e = .config m := by
  cases hl : lookupProp schema name with
  | none =>
    unfold value_for_property at h
    rw [hl] at h
    exact ⟨_, (Except.error.inj h).symm⟩
  | some d =>
    obtain ⟨p, hp⟩ := value_for_property_ok schema name v d hl
    rw [hp] at h
    exact absurd h (by simp)

lemma value_for_property_ok_mem {schema : Schema} {name : String}
    {v : PyVal} {p : PropPayload}
    (h : value_for_property schema name v = .ok p) :
    (lookupProp schema name).isSome := by
  cases hl : lookupProp schema name with
  | none =>
    unfold value_for_property at h
    rw [hl] at h
    exact absurd h (by simp)
  | some d => rfl

lemma encodeStep_err {schema : Schema} {acc : List (String × PropPayload)}
    {kv : String × PyVal} {e : Err}
    (h : encodeStep schema acc kv = .error e) : ∃ m, e = .config m := by
  unfold encodeStep at h
  cases hv : value_for_property schema kv.1 kv.2 with
  | error e0 =>
    rw [hv] at h
    obtain ⟨m, hm⟩ := value_for_property_error_config hv
    exact ⟨m, by rw [← Except.error.inj h, hm]⟩
  | ok p =>
    rw [hv] at h
    exact absurd h (by simp)

lemma encode_fold_ok (schema : Schema) :
    ∀ (l : List (String × PyVal)) (acc : List (String × PropPayload)),
      (∀ kv ∈ l, (lookupProp schema kv.1).isSome) →
      ∃ r, l.foldlM (encodeStep schema) acc = .ok r := by
  intro l
  induction l with
  | nil => intro acc _; exact ⟨acc, rfl⟩
  | cons kv rest ih =>
    intro acc hall
    obtain ⟨d, hd⟩ := Option.isSome_iff_exists.mp
      (hall kv (List.mem_cons_self _ _))
    obtain ⟨p, hp⟩ := value_for_property_ok schema kv.1 kv.2 d hd
    have hstep : encodeStep schema acc kv = .ok (dset acc kv.1 p) := by
      unfold encodeStep
      rw [hp]
    rw [List.foldlM_cons, hstep]
    simp only [Bind.bind, Except.bind]
    exact ih _ (fun x hx => hall x (List.mem_cons_of_mem _ hx))

lemma encode_fold_err (schema : Schema) :
    ∀ (l : List (String × PyVal)) (acc : List (String × PropPayload))
      (e : Err),
      l.foldlM (encodeStep schema) acc = .error e →
      ∃ m, e = .config m := by
  intro l
  induction l with
  | nil =>
    intro acc e h
    simp only [List.foldlM_nil, pure, Except.pure] at h
    exact absurd h (by simp)
  | cons kv rest ih =>
    intro acc e h
    rw [List.foldlM_cons] at h
    cases hv : encodeStep schema acc kv with
    | error e0 =>
      rw [hv] at h
      simp only [Bind.bind, Except.bind] at h
      obtain ⟨m, hm⟩ := encodeStep_err hv
      exact ⟨m, by rw [← Except.error.inj h, hm]⟩
    | ok p =>
      rw [hv] at h
      simp only [Bind.bind, Except.bind] at h
      exact ih _ e h

lemma encode_fold_unknown (schema : Schema) :
    ∀ (l : List (String × PyVal)) (acc : List (String × PropPayload))
      (kv : String × PyVal), kv ∈ l →
      lookupProp schema kv.1 = Option.none →
      ∃ m, l.foldlM (encodeStep schema) acc = .error (.config m) := by
  intro l
  induction l with
  | nil => intro acc kv hmem; exact absurd hmem (by simp)
  | cons kv0 rest ih =>
    intro acc kv hmem hnone
    rw [List.foldlM_cons]
    cases hv : encodeStep schema acc kv0 with
    | error e0 =>
      obtain ⟨m, hm⟩ := encodeStep_err hv
      refine ⟨m, ?_⟩
      rw [hm]
      simp only [Bind.bind, Except.bind]
    | ok p =>
      rcases List.mem_cons.mp hmem with heq | hrest
      · exfalso
        have hv0 : ∃ q, value_for_property schema kv0.1 kv0.2 = .ok q := by
          unfold encodeStep at hv
          cases hw : value_for_property schema kv0.1 kv0.2 with
          | error e1 => rw [hw] at hv; exact absurd hv (by simp)
          | ok q => exact ⟨q, rfl⟩
        obtain ⟨q, hq⟩ := hv0
        have := value_for_property_ok_mem hq
        rw [← heq, hnone] at this
        exact absurd this (by simp)
      · simp only [Bind.bind, Except.bind]
        exact ih _ kv hrest hnone

/-- C9: `create_task` fails with the Validation error exactly when the
title is blank; with a non-blank title it succeeds and returns the
remote-assigned page id whenever every default property is in the
schema, fails with a Configuration error (creating nothing — errors
precede the create call) when some default is unknown, and every
successful result carries the remote id unchanged. -/
theorem c9_create_task (schema : Schema) (pid : String) (title : String)
    (defaults : List (String × PyVal)) :
    ((∃ m, create_task schema pid title defaults
        = .error (.validation m)) ↔ strTrim title = "")
    ∧ (strTrim title ≠ "" →
        (∀ kv ∈ defaults, (lookupProp schema kv.1).isSome) →
        ∃ props, create_task schema pid title defaults = .ok (props, pid))
    ∧ (strTrim title ≠ "" →
        ∀ kv ∈ defaults, lookupProp schema kv.1 = Option.none →
        ∃ m, create_task schema pid title defaults
          = .error (.config m))
    ∧ (∀ props r, create_task schema pid title defaults = .ok (props, r) →
        r = pid) := by
  refine ⟨⟨?_, ?_⟩, ?_, ?_, ?_⟩
  · rintro ⟨m, hm⟩
    by_contra hne
    unfold create_task at hm
    rw [if_neg hne] at hm
    cases hf : defaults.foldlM (encodeStep schema)
        [(TITLE_PROPERTY, .title [⟨some title, Option.none⟩])] with
    | error e =>
      rw [hf] at hm
      obtain ⟨m0, hm0⟩ := encode_fold_err schema defaults _ e hf
      rw [hm0] at hm
      exact absurd (Except.error.inj hm) (by simp)
    | ok r =>
      rw [hf] at hm
      exact absurd hm (by simp)
  · intro h
    refine ⟨"Title cannot be empty", ?_⟩
    unfold create_task
    rw [if_pos h]
  · intro hne hall
    obtain ⟨r, hr⟩ := encode_fold_ok schema defaults
      [(TITLE_PROPERTY, .title [⟨some title, Option.none⟩])] hall
    refine ⟨r, ?_⟩
    unfold create_task
    rw [if_neg hne, hr]
  · intro hne kv hmem hnone
    obtain ⟨m, hm⟩ := encode_fold_unknown schema defaults
      [(TITLE_PROPERTY, .title [⟨some title, Option.none⟩])] kv hmem hnone
    refine ⟨m, ?_⟩
    unfold create_task
    rw [if_neg hne, hm]
  · intro props r h
    unfold create_task at h
    by_cases hb : strTrim title = ""
    · rw [if_pos hb] at h
      exact absurd h (by simp)
    · rw [if_neg hb] at h
      cases hf : defaults.foldlM (encodeStep schema)
          [(TITLE_PROPERTY, .title [⟨some title, Option.none⟩])] with
      | error e =>
        rw [hf] at h
        exact absurd h (by simp)
      | ok r0 =>
        rw [hf] at h
        exact (Prod.mk.injEq _ _ _ _ ▸ Except.ok.inj h).2.symm

/-- C9 (witness): blank titles fail, a concrete creation succeeds with a
non-empty id. -/
theorem c9_create_task_witness :
    (∃ m, create_task [("Status", ⟨"status", [], []⟩)] "page-1" "  " []
      = .error (.validation m))
    ∧ (∃ props, create_task [("Status", ⟨"status", [], []⟩)] "page-1"
        "Ship it" [("Status", .atom (.str "To Do"))]
        = .ok (props, "page-1"))
    ∧ "page-1" ≠ "" := by
  refine ⟨?_, ?_, by decide⟩
  · exact (c9_create_task [("Status", ⟨"status", [], []⟩)] "page-1" "  "
      []).1.mpr (by decide)
  · exact (c9_create_task [("Status", ⟨"status", [], []⟩)] "page-1"
      "Ship it" [("Status", .atom (.str "To Do"))]).2.1 (by decide)
      (by decide)

lemma vfp_status {schema : Schema} {name : String} {d : PropDesc}
    {s : String} (hl : lookupProp schema name = some d)
    (hty : d.type = "status") (hs : s ≠ "") :
    value_for_property schema name (.atom (.str s))
      = .ok (.status (some s)) := by
  unfold value_for_property
  rw [hl]
  simp only []
  rw [if_neg (by rw [hty]; decide), if_neg (by rw [hty]; decide),
      if_neg (by rw [hty]; decide), if_neg (by rw [hty]; decide),
      if_neg (by rw [hty]; decide), if_pos hty,
      if_pos (by simp [pyTruthy, atomTruthy, hs])]
  rfl

def c4Page : Page :=
  ⟨.atom (.str "p1"), .atom .none,
    [("Task", .title [⟨Option.none, some "Landing page"⟩]),
     ("Notes", .rich_text [⟨Option.none, some "A"⟩]),
     ("Notes or Description", .rich_text [⟨Option.none, some "A"⟩])]⟩

/-- C4 (counterexample): on a resolvable title, the dispatcher's notes
operation patches the "Notes" property with the old runs plus an
appended timestamped run, while the repository's `append_notes` on the
same page patches "Notes or Description" with a single merged run —
different property, different payload, so the mutations differ. -/
theorem c4_counterexample :
    (add_task_notes [c4Page] "T" (.atom (.str "Landing"))
        (.atom (.str "x"))).2
      = [⟨.atom (.str "p1"),
          [("Notes", .rich_text
            [⟨Option.none, some "A"⟩, ⟨some "\n\n[T] x", Option.none⟩])]⟩]
    ∧ append_notes [c4Page] "T" "p1" "x"
      = .ok ⟨.atom (.str "p1"), [("Notes or Description",
          .rich_text [⟨some "A\n\n[T] x", Option.none⟩])]⟩
    ∧ ([(⟨.atom (.str "p1"),
          [("Notes", .rich_text
            [⟨Option.none, some "A"⟩, ⟨some "\n\n[T] x", Option.none⟩])]⟩ :
          UpdateReq)]
        ≠ [(⟨.atom (.str "p1"), [("Notes or Description",
            .rich_text [⟨some "A\n\n[T] x", Option.none⟩])]⟩ : UpdateReq)]) :=
  ⟨by decide, by decide, by decide⟩

/-- C4 (amended): for a resolvable title, the dispatcher's status write
coincides with `update_property` exactly when "Status" is a status-typed
schema property and the new name is a non-empty string (both sides then
produce the payload `\x7b"status": \x7b"name": s\x7d\x7d`); the notes
write, however, follows the dispatcher's own convention — the existing
"Notes" runs with one appended timestamped run — not `append_notes`'s
merged-and-truncated "Notes or Description" run. -/
theorem c4_dispatcher_mutations (db : List Page) (schema : Schema)
    (now : String) (title : PyVal) (s : String) (d : PropDesc)
    (notes : String) (hs : s ≠ "")
    (hl : lookupProp schema "Status" = some d) (hty : d.type = "status")
    (hfound : pyTruthy (find_task_by_title db title) = true) :
    ((update_task_status db title (.atom (.str s))).2
        = [⟨find_task_by_title db title, [("Status", .status (some s))]⟩]
      ∧ ∀ pid, update_property schema pid "Status" (.atom (.str s))
          = .ok ⟨.atom (.str pid), [("Status", .status (some s))]⟩)
    ∧ (∀ page, db.find? (fun p => p.id = find_task_by_title db title)
          = some page →
        (add_task_notes db now title (.atom (.str notes))).2
          = [⟨find_task_by_title db title,
              [("Notes", .rich_text (notesRunsOf page
                ++ [⟨some ("\n\n[" ++ now ++ "] " ++ notes),
                    Option.none⟩]))]⟩]) := by
  refine ⟨⟨?_, ?_⟩, ?_⟩
  · unfold update_task_status
    rw [if_neg (by rw [hfound]; decide)]
  · intro pid
    have hd : dget schema "Status" = some d := hl
    unfold update_property
    rw [if_neg (by simp [dmem, hd]), vfp_status hl hty hs]
  · intro page hpage
    unfold add_task_notes
    rw [if_neg (by rw [hfound]; decide), hpage]
    simp [pyStr, atomStr]

def c4wSchema : Schema := [("Status", ⟨"status", [], []⟩)]

/-- C4 (witness): the amended status coincidence at a concrete page. -/
theorem c4_dispatcher_mutations_witness :
    (update_task_status [c4Page] (.atom (.str "Landing"))
        (.atom (.str "Done"))).2
      = [⟨find_task_by_title [c4Page] (.atom (.str "Landing")),
          [("Status", .status (some "Done"))]⟩]
    ∧ update_property c4wSchema "p1" "Status" (.atom (.str "Done"))
      = .ok ⟨.atom (.str "p1"), [("Status", .status (some "Done"))]⟩ := by
  have h := c4_dispatcher_mutations [c4Page] c4wSchema "T"
    (.atom (.str "Landing")) "Done" ⟨"status", [], []⟩ "x"
    (by decide) (by decide) rfl (by decide)
  exact ⟨h.1.1, h.1.2 "p1"⟩

/-- C5 (counterexample): `execute_tool` does raise to its caller — a
recognized tool with a missing required input key hits an uncaught
`KeyError` subscript instead of returning a \x7bsuccess, message\x7d
result. -/
theorem c5_counterexample :
    execute_tool [] "T" "update_task_status" []
      = .error (.runtime "KeyError: task_title") := by decide

/-- C5 (amended): an unknown tool name returns the fixed Unknown-tool
failure result; when the required input keys are present, each
recognized tool returns a \x7bsuccess, message\x7d result without
raising; an unresolvable string title yields the Could-not-find failure
result; and title resolution takes the first page matched by the
substring title filter. -/
theorem c5_execute_tool (db : List Page) (now : String)
    (tool_name : String) (tool_input : List (String × PyVal)) :
    (tool_name ≠ "update_task_status" → tool_name ≠ "add_task_notes" →
      execute_tool db now tool_name tool_input
        = .ok (⟨false, "Unknown tool"⟩, []))
    ∧ (tool_name = "update_task_status" →
        dmem tool_input "task_title" = true →
        dmem tool_input "new_status" = true →
        ∃ r, execute_tool db now tool_name tool_input = .ok r)
    ∧ (tool_name = "add_task_notes" →
        dmem tool_input "task_title" = true →
        dmem tool_input "notes" = true →
        ∃ r, execute_tool db now tool_name tool_input = .ok r)
    ∧ (∀ t s, tool_name = "update_task_status" →
        dget tool_input "task_title" = some (PyVal.atom (.str t)) →
        dget tool_input "new_status" = some s →
        find_task_by_title db (.atom (.str t)) = .atom .none →
        execute_tool db now tool_name tool_input
          = .ok (⟨false, "Could not find task: " ++ t⟩, []))
    ∧ (∀ t p rest, db.filter (titleQueryMatch t) = p :: rest →
        find_task_by_title db (.atom (.str t)) = p.id) := by
  refine ⟨?_, ?_, ?_, ?_, ?_⟩
  · intro h1 h2
    unfold execute_tool
    rw [if_neg h1, if_neg h2]
  · intro hn h1 h2
    obtain ⟨t, ht⟩ := Option.isSome_iff_exists.mp h1
    obtain ⟨s, hsv⟩ := Option.isSome_iff_exists.mp h2
    refine ⟨update_task_status db t s, ?_⟩
    unfold execute_tool
    rw [if_pos hn]
    have hgt : getItem tool_input "task_title" = .ok t := by
      unfold getItem; rw [ht]
    have hgs : getItem tool_input "new_status" = .ok s := by
      unfold getItem; rw [hsv]
    rw [hgt, hgs]
  · intro hn h1 h2
    obtain ⟨t, ht⟩ := Option.isSome_iff_exists.mp h1
    obtain ⟨nv, hnv⟩ := Option.isSome_iff_exists.mp h2
    refine ⟨add_task_notes db now t nv, ?_⟩
    unfold execute_tool
    by_cases hu : tool_name = "update_task_status"
    · rw [hu] at hn; exact absurd hn (by decide)
    rw [if_neg hu, if_pos hn]
    have hgt : getItem tool_input "task_title" = .ok t := by
      unfold getItem; rw [ht]
    have hgn : getItem tool_input "notes" = .ok nv := by
      unfold getItem; rw [hnv]
    rw [hgt, hgn]
  · intro t s hn ht hsv hmiss
    unfold execute_tool
    rw [if_pos hn]
    have hgt : getItem tool_input "task_title" = .ok (.atom (.str t)) := by
      unfold getItem; rw [ht]
    have hgs : getItem tool_input "new_status" = .ok s := by
      unfold getItem; rw [hsv]
    rw [hgt, hgs]
    simp [update_task_status, hmiss, pyTruthy, atomTruthy, pyStr, atomStr]
  · intro t p rest hfilter
    have hstep : find_task_by_title db (.atom (.str t))
        = match db.filter (titleQueryMatch t) with
          | [] => PyVal.atom .none
          | p :: _ => p.id := rfl
    rw [hstep, hfilter]

/-- C5 (witness): the amended dispatch results at concrete inputs. -/
theorem c5_execute_tool_witness :
    execute_tool [] "T" "bogus" [] = .ok (⟨false, "Unknown tool"⟩, [])
    ∧ execute_tool [] "T" "update_task_status"
        [("task_title", .atom (.str "X")), ("new_status", .atom (.str "Done"))]
      = .ok (⟨false, "Could not find task: " ++ "X"⟩, []) := by
  have h := c5_execute_tool [] "T" "bogus" []
  have h2 := c5_execute_tool [] "T" "update_task_status"
    [("task_title", .atom (.str "X")), ("new_status", .atom (.str "Done"))]
  exact ⟨h.1 (by decide) (by decide),
    h2.2.2.2.1 "X" (.atom (.str "Done")) rfl (by decide) (by decide)
      (by decide)⟩

/-- Modelled from the spec (§5): a content block of a model response as
the loop observes it — a text block, a tool-use block carrying id, name
and input, or anything else. -/
inductive Block
  | text (s : String)
  | tool_use (id : String) (name : String) (input : List (String × PyVal))
  | other
  deriving DecidableEq

/-- Modelled from the spec (§5): a model response: `stop_reason` and the
content blocks. -/
structure ModelResponse where
  stop_reason : Option String
  content : List Block
  deriving DecidableEq

/-- The first tool-use block's fields
(`next((block for block in serialized_content if block.get("type") ==
"tool_use"), None)` followed by the `name`/`input` reads). -/
def firstToolUse : List Block → Option (String × String × List (String × PyVal))
  | [] => Option.none
  | .tool_use i n inp :: _ => some (i, n, inp)
  | _ :: rest => firstToolUse rest

/-- The first text block's text (`next((block.get("text") for ... if
block.get("type") == "text"), ...)`). -/
def firstText : List Block → Option String
  | [] => Option.none
  | .text s :: _ => some s
  | _ :: rest => firstText rest

/-- The final answer taken from a response: the first text block's text,
else the fixed apology. -/
def finalAnswer (r : ModelResponse) : String :=
  (firstText r.content).getD "I encountered an issue. Please try again."

/-- Python `repr` of a string as `str(dict)` renders it: single-quoted,
double-quoted when the text itself holds an apostrophe (no message
observed by a claim holds a double quote or backslash). -/
def reprStr (s : String) : String :=
  if s.data.any (fun c => c.toNat = 39) then "\x22" ++ s ++ "\x22"
  else "'" ++ s ++ "'"

/-- `str(tool_result)` for the dispatcher's two-key result dict. -/
def toolResultStr (r : ToolResult) : String :=
  "\x7b'success': " ++ (if r.success then "True" else "False")
    ++ ", 'message': " ++ reprStr r.message ++ "\x7d"

/-- A transcript turn's content: the user prompt / final answer string,
an assistant turn holding serialized blocks, or the synthetic tool-result
turn (`\x7b"type": "tool_result", "tool_use_id": ..., "content":
str(tool_result)\x7d`). -/
inductive TurnContent
  | text (s : String)
  | blocks (bs : List Block)
  | toolResult (tool_use_id : String) (content : String)
  deriving DecidableEq

/-- A transcript turn (`\x7b"role": ..., "content": ...\x7d`). -/
structure Turn where
  role : String
  content : TurnContent
  deriving DecidableEq

/-- What one run of the `while` loop of the chat handler (src/app.py)
produces: the turns appended to `messages`, the dispatched (tool name,
input) cycles in order, the remote mutations in order, and the final
answer string. -/
structure LoopOut where
  transcript : List Turn
  dispatched : List (String × List (String × PyVal))
  updates : List UpdateReq
  answer : String
  deriving DecidableEq

/-- The `while getattr(response, "stop_reason", None) == "tool_use"` loop
of src/app.py over a current response and the canned responses the model
returns to the subsequent `messages.create` calls.  `.ok none` models
running out of canned responses (the real loop would call the model
again); a dispatcher exception propagates (the loop body does not catch
it).  Remote writes are collected in order, not folded back into `db`
(no claim makes a later read observe an earlier write of the same
turn). -/
def chatLoop (db : List Page) (now : String) :
    ModelResponse → List ModelResponse → Except Err (Option LoopOut)
  | r, pending =>
    if r.stop_reason = some "tool_use" then
      match firstToolUse r.content with
      | Option.none =>
          .ok (some ⟨[⟨"assistant", .blocks r.content⟩], [], [],
            finalAnswer r⟩)
      | some (i, n, inp) =>
        match execute_tool db now n inp with
        | .error e => .error e
        | .ok (res, ups) =>
          match pending with
          | [] => .ok Option.none
          | r2 :: rest =>
            match chatLoop db now r2 rest with
            | .error e => .error e
            | .ok Option.none => .ok Option.none
            | .ok (some out) =>
                .ok (some ⟨⟨"assistant", .blocks r.content⟩
                    :: ⟨"user", .toolResult i (toolResultStr res)⟩
                    :: out.transcript,
                  (n, inp) :: out.dispatched,
                  ups ++ out.updates, out.answer⟩)
    else .ok (some ⟨[], [], [], finalAnswer r⟩)

/-- C6: on a [tool-call, tool-call, text] response sequence the loop
dispatches exactly the first tool-use block of each tool-use response
(two dispatch cycles), appends after each assistant turn a synthetic
tool-result turn holding the block's id and the stringified dispatcher
result, and returns the first text block of the final response as the
answer; a tool-use block is picked as first regardless of the blocks
after it. -/
theorem c6_conversation_loop (db : List Page) (now : String)
    (r1 r2 r3 : ModelResponse) (i1 n1 : String)
    (inp1 : List (String × PyVal)) (i2 n2 : String)
    (inp2 : List (String × PyVal)) (res1 res2 : ToolResult)
    (ups1 ups2 : List UpdateReq)
    (h1 : r1.stop_reason = some "tool_use")
    (hf1 : firstToolUse r1.content = some (i1, n1, inp1))
    (he1 : execute_tool db now n1 inp1 = .ok (res1, ups1))
    (h2 : r2.stop_reason = some "tool_use")
    (hf2 : firstToolUse r2.content = some (i2, n2, inp2))
    (he2 : execute_tool db now n2 inp2 = .ok (res2, ups2))
    (h3 : r3.stop_reason ≠ some "tool_use") :
    (chatLoop db now r1 [r2, r3]
      = .ok (some ⟨[⟨"assistant", .blocks r1.content⟩,
          ⟨"user", .toolResult i1 (toolResultStr res1)⟩,
          ⟨"assistant", .blocks r2.content⟩,
          ⟨"user", .toolResult i2 (toolResultStr res2)⟩],
          [(n1, inp1), (n2, inp2)], ups1 ++ ups2, finalAnswer r3⟩))
    ∧ (∀ i n inp bs, firstToolUse (Block.tool_use i n inp :: bs)
        = some (i, n, inp)) := by
  refine ⟨?_, fun i n inp bs => rfl⟩
  have hbase : chatLoop db now r3 [] = .ok (some ⟨[], [], [], finalAnswer r3⟩) := by
    unfold chatLoop
    rw [if_neg h3]
  have hmid : chatLoop db now r2 [r3]
      = .ok (some ⟨[⟨"assistant", .blocks r2.content⟩,
          ⟨"user", .toolResult i2 (toolResultStr res2)⟩],
          [(n2, inp2)], ups2 ++ [], finalAnswer r3⟩) := by
    unfold chatLoop
    rw [if_pos h2, hf2]
    simp only []
    rw [he2]
    simp only []
    rw [hbase]
  unfold chatLoop
  rw [if_pos h1, hf1]
  simp only []
  rw [he1]
  simp only []
  rw [hmid]
  simp only []
  rw [List.append_nil]

def c6in1 : List (String × PyVal) :=
  [("task_title", .atom (.str "Landing")), ("new_status", .atom (.str "Done"))]

def c6in2 : List (String × PyVal) :=
  [("task_title", .atom (.str "Landing")), ("notes", .atom (.str "did it"))]

def c6r1 : ModelResponse :=
  ⟨some "tool_use", [.tool_use "tu1" "update_task_status" c6in1,
    .tool_use "tux" "add_task_notes" c6in2]⟩

def c6r2 : ModelResponse :=
  ⟨some "tool_use", [.tool_use "tu2" "add_task_notes" c6in2]⟩

def c6r3 : ModelResponse := ⟨some "end_turn", [.text "All done."]⟩

/-- C6 (witness): the two-cycle run at a concrete database and response
sequence. -/
theorem c6_conversation_loop_witness :
    chatLoop [c4Page] "T" c6r1 [c6r2, c6r3]
      = .ok (some ⟨[⟨"assistant", .blocks c6r1.content⟩,
          ⟨"user", .toolResult "tu1"
            (toolResultStr ⟨true, "Updated 'Landing' to Done"⟩)⟩,
          ⟨"assistant", .blocks c6r2.content⟩,
          ⟨"user", .toolResult "tu2"
            (toolResultStr ⟨true, "Added notes to 'Landing'"⟩)⟩],
          [("update_task_status", c6in1), ("add_task_notes", c6in2)],
          [⟨.atom (.str "p1"), [("Status", .status (some "Done"))]⟩,
           ⟨.atom (.str "p1"), [("Notes", .rich_text
             [⟨Option.none, some "A"⟩,
              ⟨some "\n\n[T] did it", Option.none⟩])]⟩],
          "All done."⟩) := by
  have h := c6_conversation_loop [c4Page] "T" c6r1 c6r2 c6r3
    "tu1" "update_task_status" c6in1 "tu2" "add_task_notes" c6in2
    ⟨true, "Updated 'Landing' to Done"⟩ ⟨true, "Added notes to 'Landing'"⟩
    [⟨.atom (.str "p1"), [("Status", .status (some "Done"))]⟩]
    [⟨.atom (.str "p1"), [("Notes", .rich_text
      [⟨Option.none, some "A"⟩, ⟨some "\n\n[T] did it", Option.none⟩])]⟩]
    rfl rfl (by decide) rfl rfl (by decide) (by decide)
  exact h.1

/-- C10 (counterexample): for the schema whose only property is a
number-typed property named "Title" and an empty page, the produced task
carries `None` under `"title"` — not a non-null string, and not the
literal `"Untitled"` although the schema has no title-typed property (the
slug of "Title" collides with the `"title"` key). -/
theorem c10_counterexample :
    dget (page_to_task [("Title", ⟨"number", [], []⟩)]
        ⟨.atom .none, .atom .none, []⟩) "title"
      = some (.v (.atom .none))
    ∧ TVal.v (.atom .none) ≠ TVal.v (.atom (.str "Untitled")) := by
  exact ⟨by decide, by decide⟩

/-- C10 (amended): provided every schema or payload property whose slug
is `"title"` is itself title-typed, every produced task carries a
non-empty string under `"title"`; and it carries the literal `"Untitled"`
whenever every title-typed schema property decodes its page payload to
`"Untitled"` (missing or empty title text) and every title-typed payload
property decodes to `"Untitled"` as well. -/
theorem c10_task_title (schema : Schema) (page : Page)
    (h1 : ∀ e ∈ schema, slugify e.1 = "title" → e.2.type = "title")
    (h2 : ∀ e ∈ page.properties,
      slugify e.1 = "title" → e.2.typeTag = "title") :
    (∃ s, s ≠ "" ∧
      dget (page_to_task schema page) "title"
        = some (TVal.v (.atom (.str s))))
    ∧ ((∀ e ∈ schema, e.2.type = "title" →
          extract_property_value e.2.type (dget page.properties e.1)
            = .atom (.str "Untitled")) →
       (∀ e ∈ page.properties, e.2.typeTag = "title" →
          extract_property_value e.2.typeTag (some e.2)
            = .atom (.str "Untitled")) →
       dget (page_to_task schema page) "title"
         = some (TVal.v (.atom (.str "Untitled")))) := by
  unfold page_to_task
  simp only []
  constructor
  · have ht2 : TitleOk
        (page.properties.foldl pageStep2
          (schema.foldl (pageStep1 page.properties)
            [("id", .v page.id), ("last_edited_time", .v page.last_edited_time),
             ("properties", .props []), ("_raw_properties", .raw page.properties)])) := by
      apply foldl_pageStep2_titleOk _ _ h2
      apply foldl_pageStep1_titleOk _ _ _ h1
      intro x hx
      simp [dget] at hx
    rw [taskText_preserves_title]
    split
    case isTrue hmem =>
      obtain ⟨x, hx⟩ := Option.isSome_iff_exists.mp hmem
      obtain ⟨s, hs, hxs⟩ := ht2 x hx
      exact ⟨s, hs, by rw [hx, hxs]⟩
    case isFalse =>
      exact ⟨"Untitled", by decide, dget_dset_self _ _ _⟩
  · intro hi hii
    have ht2 : UntitledOk
        (page.properties.foldl pageStep2
          (schema.foldl (pageStep1 page.properties)
            [("id", .v page.id), ("last_edited_time", .v page.last_edited_time),
             ("properties", .props []), ("_raw_properties", .raw page.properties)])) := by
      apply foldl_pageStep2_untitledOk _ _ h2 hii
      apply foldl_pageStep1_untitledOk _ _ _ h1 hi
      intro x hx
      simp [dget] at hx
    rw [taskText_preserves_title]
    split
    case isTrue hmem =>
      obtain ⟨x, hx⟩ := Option.isSome_iff_exists.mp hmem
      rw [hx, ht2 x hx]
    case isFalse =>
      exact dget_dset_self _ _ _

/-- C10 (witness): the amended invariant at a concrete schema/page. -/
theorem c10_task_title_witness :
    (∃ s, s ≠ "" ∧
      dget (page_to_task [("Task", ⟨"title", [], []⟩)]
          ⟨.atom (.str "p1"), .atom .none,
            [("Task", .title [⟨Option.none, some "Hello"⟩])]⟩) "title"
        = some (TVal.v (.atom (.str s)))) := by
  refine (c10_task_title [("Task", ⟨"title", [], []⟩)]
    ⟨.atom (.str "p1"), .atom .none,
      [("Task", .title [⟨Option.none, some "Hello"⟩])]⟩
    ?_ ?_).1
  · decide
  · decide

end ProjAssist
